import Mathlib

/-!
# Verification of the DAT operation-execution and pipeline-synthesis core

Shallow embedding of `dat/operations/execution.py` and
`dat/vistrails_interface.py`.

Modelling conventions:
* Python classes of the VisTrails module hierarchy are modelled by `ModClass`:
  the distinguished base class `Module` is `ModClass.module`; every other class
  is `ModClass.cls id bases` where `bases` is the ordered list of its
  `__bases__`.  Python compares classes by identity; we identify classes by
  their structure, with the `id` field available to keep distinct classes
  distinct.
* Python dicts keyed by classes or ids are association lists; Python dict
  assignment (last write wins) is modelled by `assocSet`, lookup by
  `assocFind`.
* Python sets of operations are lists without duplicates; set-`add` is
  `setAdd` (insert if absent).  Set iteration order is unspecified in Python,
  so list order stands for one arbitrary admissible order.
* Machine integers: `sys.maxint` is the literal `2 ^ 63 - 1`; inheritance
  levels are `Nat`.
* Numeric literal values are modelled as integers (`Int`): the expression
  parser (`dat/operations/parsing.py`, not part of the sources) decides
  int-vs-float, and the spec leaves the numeric model of division open
  (section 9), so the Python 2 semantics of integer literals is embedded:
  exact `+ - *` and floor division for `/`.  String values are `String`.
  Fallible Python code (raised exceptions) returns `Except`.
-/

set_option autoImplicit false

/-- A VisTrails module class.  `module` is the root class
`vistrails.core.modules.vistrails_module.Module`; `cls id bases` is any other
class with its ordered list of base classes (`__bases__`). -/
inductive ModClass where
  | module : ModClass
  | cls (id : Nat) (bases : List ModClass) : ModClass

mutual

def ModClass.decEq : (a b : ModClass) → Decidable (a = b)
  | .module, .module => isTrue rfl
  | .module, .cls _ _ => isFalse (by intro h; cases h)
  | .cls _ _, .module => isFalse (by intro h; cases h)
  | .cls i bs, .cls j cs =>
      match Nat.decEq i j, ModClass.decEqList bs cs with
      | isTrue hi, isTrue hb => isTrue (by rw [hi, hb])
      | isFalse hi, _ => isFalse (by intro h; injection h; contradiction)
      | _, isFalse hb => isFalse (by intro h; injection h; contradiction)

def ModClass.decEqList : (a b : List ModClass) → Decidable (a = b)
  | [], [] => isTrue rfl
  | [], _ :: _ => isFalse (by intro h; cases h)
  | _ :: _, [] => isFalse (by intro h; cases h)
  | a :: as, b :: bs =>
      match ModClass.decEq a b, ModClass.decEqList as bs with
      | isTrue h1, isTrue h2 => isTrue (by rw [h1, h2])
      | isFalse h1, _ => isFalse (by intro h; injection h; contradiction)
      | _, isFalse h2 => isFalse (by intro h; injection h; contradiction)

end

instance : DecidableEq ModClass := ModClass.decEq

/-- A module descriptor, as handed out by the VisTrails module registry.  Its
`module` field is the Python class the descriptor describes; `package` and
`name` identify it in the registry. -/
structure Descriptor where
  package : String
  name : String
  module : ModClass
  deriving DecidableEq

/-- One declared parameter of an operation: the set of acceptable types. -/
structure OpParameter where
  types : List Descriptor
  deriving DecidableEq

/-- An operation (`dat` `Operation` object).  The native callback is
represented by an identifier resolved through a callback environment (the
actual Python function is external data); `none` means the operation is
implemented by a subworkflow. -/
structure Operation where
  name : String
  usable_in_command : Bool
  parameters : List OpParameter
  return_type : Descriptor
  callback : Option Nat
  subworkflow : Option Nat
  deriving DecidableEq

/-- Association-list lookup, first match wins (Python dict lookup). -/
def assocFind {K V : Type} [DecidableEq K] (k : K) : List (K × V) → Option V
  | [] => none
  | (k', v) :: rest => if k' = k then some v else assocFind k rest

/-- Association-list assignment (Python dict `d[k] = v`): overwrite the
binding if present, else append. -/
def assocSet {K V : Type} [DecidableEq K] (k : K) (v : V) : List (K × V) → List (K × V)
  | [] => [(k, v)]
  | (k', v') :: rest =>
      if k' = k then (k, v) :: rest else (k', v') :: assocSet k v rest

/-- Python set `add`: insert the element if it is not already present. -/
def setAdd {A : Type} [DecidableEq A] (l : List A) (a : A) : List A :=
  if a ∈ l then l else l ++ [a]

/-! ## `parent_modules` (execution.py lines 116-141)

`_fill_parent_modules_map` walks the inheritance tree of a class, recording
in a dict every class on a path to `Module` together with its depth below the
starting class.  The Python early `return True` on finding `Module` among the
bases is mirrored exactly. -/

mutual

/-- Embedding of `_fill_parent_modules_map(mod, parents, level)`; returns the
updated dict together with the boolean result. -/
def fillParentModulesMap (mod : ModClass) (parents : List (ModClass × Nat))
    (level : Nat) : List (ModClass × Nat) × Bool :=
  match mod with
  | .module => (parents, false)
  | .cls i bases => fillParentsLoop (.cls i bases) level bases parents false

/-- The `for parent in mod.__bases__` loop body of
`_fill_parent_modules_map`, carrying `parents` and `top_hit`. -/
def fillParentsLoop (mod : ModClass) (level : Nat) (bases : List ModClass)
    (parents : List (ModClass × Nat)) (topHit : Bool) :
    List (ModClass × Nat) × Bool :=
  match bases with
  | [] => (parents, topHit)
  | b :: rest =>
      if b = .module then
        -- early return True, remaining bases are not explored
        (assocSet mod level parents, true)
      else
        match fillParentModulesMap b parents (level + 1) with
        | (parents2, true) =>
            fillParentsLoop mod level rest (assocSet mod level parents2) true
        | (parents2, false) =>
            fillParentsLoop mod level rest parents2 topHit

end

/-- Embedding of `parent_modules(mod)`: dict mapping each ancestor class (the
class itself included) lying on an inheritance path to `Module` to its
distance from `mod`. -/
def parent_modules (mod : ModClass) : List (ModClass × Nat) :=
  (fillParentModulesMap mod [] 0).1

/-! ## `find_operation` (execution.py lines 144-203) -/

/-- `sys.maxint` on a 64-bit host, the initial `current_score`. -/
def sysMaxint : Nat := 2 ^ 63 - 1

/-- The `for desc in op.parameters[i].types` loop of `find_operation`:
update the retained set and the current best score with every acceptable type
of `op` at the current position. -/
def typesLoop (bases : List (ModClass × Nat)) (op : Operation) :
    List Descriptor → List Operation → Nat → List Operation × Nat
  | [], retained, cur => (retained, cur)
  | d :: rest, retained, cur =>
      match assocFind d.module bases with
      | none => typesLoop bases op rest retained cur
      | some score =>
          if score < cur then
            -- forget the previous operations, this one is better
            typesLoop bases op rest [op] score
          else if score = cur then
            typesLoop bases op rest (setAdd retained op) cur
          else
            typesLoop bases op rest retained cur

/-- The `for op in operations` loop of `find_operation` at one argument
position `i`. -/
def opsLoop (bases : List (ModClass × Nat)) (i : Nat) :
    List Operation → List Operation → Nat → List Operation × Nat
  | [], retained, cur => (retained, cur)
  | op :: rest, retained, cur =>
      let (retained2, cur2) :=
        typesLoop bases op ((op.parameters.getD i ⟨[]⟩).types) retained cur
      opsLoop bases i rest retained2 cur2

/-- Processing of one argument position in `find_operation`: start from an
empty retained set and `sys.maxint`, scan all surviving operations. -/
def filterArg (bases : List (ModClass × Nat)) (i : Nat)
    (ops : List Operation) : List Operation :=
  (opsLoop bases i ops [] sysMaxint).1

/-- The `for i, actual in enumerate(args)` loop of `find_operation`, with the
early `break` when no operation survives a position. -/
def matchArgs (ops : List Operation) (i : Nat) :
    List Descriptor → List Operation
  | [] => ops
  | actual :: rest =>
      let retained := filterArg (parent_modules actual.module) i ops
      if retained.isEmpty then [] else matchArgs retained (i + 1) rest

/-- Failure modes of the execution core.  Each constructor corresponds to one
`InvalidOperation` message (or native exception) raised by `execution.py`:
`noSuchOperation` = "There is no operation %r",
`arityMismatch` = "There is no operation %r with %d arguments",
`noMatchingOperation` = "Found no match for operation %r with given %d args",
`unknownVariable` = "Unknown variable %r",
`duplicateVariable` = "Target variable %r already exists",
`operationImplementationError` = "Package error: operation callback returned
None"; `typeError`, `zeroDivision` and `indexError` are the native Python
exceptions reachable from the constant-folding code. -/
inductive ExecErr where
  | noSuchOperation (name : String)
  | arityMismatch (name : String) (nargs : Nat)
  | noMatchingOperation (name : String) (nargs : Nat)
  | unknownVariable (name : String)
  | duplicateVariable (name : String)
  | operationImplementationError
  | typeError
  | zeroDivision
  | indexError
  deriving DecidableEq

/-- The candidate set of `find_operation` before arity filtering: registered
operations with the right name that are usable on the command line, union the
built-in operations of that name (a Python set; `dedup` models the
set union). -/
def find_operation_candidates (registry : List Operation)
    (builtins : List (String × List Operation)) (name : String) :
    List Operation :=
  ((registry.filter fun op => op.name = name ∧ op.usable_in_command)
    ++ (assocFind name builtins).getD []).dedup

/-- The candidate set after the arity filter of `find_operation`: candidates
whose parameter count equals the argument count. -/
def find_operation_matching (registry : List Operation)
    (builtins : List (String × List Operation)) (name : String)
    (args : List Descriptor) : List Operation :=
  (find_operation_candidates registry builtins name).filter
    fun op => op.parameters.length = args.length

/-- Embedding of `find_operation(name, args)`.  `registry` stands for
`GlobalManager.variable_operations` and `builtins` for
`dat.operations.builtins.builtin_operations`.  On success it returns the
chosen operation (`next(iter(operations))`, modelled as the list head)
together with a flag recording whether the `OperationWarning` about an
ambiguous match was emitted. -/
def find_operation (registry : List Operation)
    (builtins : List (String × List Operation)) (name : String)
    (args : List Descriptor) : Except ExecErr (Operation × Bool) :=
  if (find_operation_candidates registry builtins name).isEmpty then
    .error (.noSuchOperation name)
  else if (find_operation_matching registry builtins name args).isEmpty then
    .error (.arityMismatch name args.length)
  else
    match matchArgs (find_operation_matching registry builtins name args)
        0 args with
    | [] => .error (.noMatchingOperation name args.length)
    | [op] => .ok (op, false)
    | op :: _ :: _ => .ok (op, true)

/-! ## Constant values and Python arithmetic

`execution.py` folds constant subexpressions with the native Python
operators.  Values are strings or numbers; the four binary operators follow
Python semantics on those carriers (string concatenation for `+`, `TypeError`
on mixed operands, `ZeroDivisionError` on division by zero). -/

/-- A literal value as produced by the expression parser. -/
inductive ConstValue where
  | str (s : String)
  | num (n : Int)
  deriving DecidableEq

/-- The `isinstance(value, basestring)` test of `BuildConstant.__init__`. -/
def ConstValue.isStr : ConstValue → Bool
  | .str _ => true
  | .num _ => false

/-- Python `str(value)` rendering used by `BuildConstant.execute` to set the
module function.  Strings render as themselves, integers in decimal. -/
def pyStr : ConstValue → String
  | .str s => s
  | .num n => toString n

/-- Python binary `+` on literal values. -/
def pyAdd : ConstValue → ConstValue → Except ExecErr ConstValue
  | .num a, .num b => .ok (.num (a + b))
  | .str a, .str b => .ok (.str (a ++ b))
  | _, _ => .error .typeError

/-- Python binary `-` on literal values. -/
def pySub : ConstValue → ConstValue → Except ExecErr ConstValue
  | .num a, .num b => .ok (.num (a - b))
  | _, _ => .error .typeError

/-- Python binary `*` on literal values (string repetition by an integer is
not representable with rational literals and is treated as a `TypeError`). -/
def pyMul : ConstValue → ConstValue → Except ExecErr ConstValue
  | .num a, .num b => .ok (.num (a * b))
  | _, _ => .error .typeError

/-- Python binary `/` on literal values: `ZeroDivisionError` on a zero
divisor, Python 2 floor division of integers otherwise. -/
def pyDiv : ConstValue → ConstValue → Except ExecErr ConstValue
  | .num a, .num b =>
      if b = 0 then .error .zeroDivision else .ok (.num (Int.fdiv a b))
  | _, _ => .error .typeError

/-! ## Host registry descriptors

`get_descriptor_by_name` hands out fixed descriptors from the host module
registry; the two used by `BuildConstant` are modelled as fixed values with
distinct underlying classes, both direct subclasses of `Module`. -/

/-- The class behind the basic `String` descriptor. -/
def stringModClass : ModClass := .cls 1 [.module]

/-- The class behind the basic `Float` descriptor. -/
def floatModClass : ModClass := .cls 2 [.module]

/-- `get_descriptor_by_name('org.vistrails.vistrails.basic', 'String')`. -/
def stringDesc : Descriptor :=
  ⟨"org.vistrails.vistrails.basic", "String", stringModClass⟩

/-- `get_descriptor_by_name('org.vistrails.vistrails.basic', 'Float')`. -/
def floatDesc : Descriptor :=
  ⟨"org.vistrails.vistrails.basic", "Float", floatModClass⟩

/-! ## Buffered pipeline edits and variables -/

/-- One buffered graph edit, as accumulated by the pipeline generator before
a commit: adding a module, setting a module function, or adding a
connection. -/
inductive PipeOp where
  | addModule (moduleId : Nat) (desc : Descriptor)
  | setFunction (moduleId : Nat) (port : String) (args : List String)
  | addConnection (srcId : Nat) (srcPort : String) (dstId : Nat)
      (dstPort : String)
  deriving DecidableEq

/-- The slice of the host controller state this core depends on: the id
scope from which fresh module ids are minted. -/
structure Controller where
  nextId : Nat
  deriving DecidableEq

/-- `controller.create_module_from_descriptor`: mint a module with a fresh
id. -/
def create_module_from_descriptor (ctrl : Controller) (_d : Descriptor) :
    Nat × Controller :=
  (ctrl.nextId, ⟨ctrl.nextId + 1⟩)

/-- Provenance records (`dat.data_provenance`), parameterized by the variable
type to allow the nested use inside `Variable`:  a `Constant` record for
literal modules, an `Operation` record holding the operation and the ordered
argument list. -/
inductive ProvOf (V : Type) where
  | constant (c : ConstValue)
  | operation (op : Operation) (arg_list : List V)

/-- A materialized (or materializable) DAT variable wrapper as used by
`execution.py`: result type, buffered edit list (the pipeline generator
content), designated output port, and provenance.

Modelled from the spec: the `Variable` class that `execution.py` constructs
(with `type`, `controller`, `generator`, `output` and `provenance`
attributes) belongs to a revision of `dat/vistrails_interface.py` that is not
among the sources; its data is taken from section 3 of the spec ("Variable"
attributes: result type, designated output port, provenance record, buffered
edit list). -/
inductive Variable where
  | mk (type : Descriptor) (generator : List PipeOp)
      (output : Option (Nat × String)) (provenance : Option (ProvOf Variable))
      : Variable

/-- Result type of the variable. -/
def Variable.type : Variable → Descriptor
  | .mk t _ _ _ => t

/-- Buffered edit list of the variable. -/
def Variable.generator : Variable → List PipeOp
  | .mk _ g _ _ => g

/-- Designated output port (module id, port name) of the variable. -/
def Variable.output : Variable → Option (Nat × String)
  | .mk _ _ o _ => o

/-- Provenance record of the variable. -/
def Variable.provenance : Variable → Option (ProvOf Variable)
  | .mk _ _ _ p => p

/-- `result.provenance = p` (attribute assignment). -/
def Variable.setProvenance (v : Variable) (p : ProvOf Variable) : Variable :=
  match v with
  | .mk t g o _ => .mk t g o (some p)

/-- Modelled from the spec: `Variable.from_workflow` (absent from the source
revision of `dat/vistrails_interface.py`) returns the referenced Variable
materialized wrapper directly, by reference and not as a copy; with
`record_materialized=False` (the only call site in `execution.py`) it records
no materialization provenance. -/
def Variable.from_workflow (v : Variable) (_recordMaterialized : Bool) :
    Variable :=
  v

/-- Modelled from the spec: the registry of named variables kept by
`dat.vistrail_data.VistrailManager` (absent from the sources); a mapping from
variable names to variable wrappers. -/
structure VistrailData where
  vars : List (String × Variable)

/-- `vistraildata.get_variable(name)`. -/
def VistrailData.get_variable (vd : VistrailData) (name : String) :
    Option Variable :=
  assocFind name vd.vars

/-- `vistraildata.new_variable(name, variable)`: register the materializable
variable under the target name. -/
def VistrailData.new_variable (vd : VistrailData) (name : String)
    (v : Variable) : VistrailData :=
  ⟨vd.vars ++ [(name, v)]⟩

/-- The process-wide context `execution.py` reads:
`GlobalManager.variable_operations` (the registered operations),
`dat.operations.builtins.builtin_operations` (built-ins keyed by name), the
native callback functions (keyed by the callback identifier stored in the
operation), and the subworkflow template instantiation (keyed likewise).

The callback entry is the actual Python function of the operation;
`subworkflows` abstracts `apply_operation_subworkflow`, see below. -/
structure ExecEnv where
  registry : List Operation
  builtins : List (String × List Operation)
  callbacks : Nat → List Variable → Option Variable
  subworkflows : Nat → List Variable → Variable

/-! ## Compute nodes (`ComputeVariable` and subclasses) -/

/-- The tagged compute-node tree built by `resolve_symbols`
(`ComputeVariable` and its subclasses `GetExistingVariable`, `BuildConstant`
and `ApplyOperation` in `execution.py`).  Each node stores the fields its
Python `__init__` stores: the referenced wrapper, the literal value with its
inferred descriptor, or the chosen operation with the resolved argument
nodes. -/
inductive ComputeVariable where
  | getExistingVariable (var : Variable)
  | buildConstant (value : ConstValue) (type : Descriptor)
  | applyOperation (op : Operation) (args : List ComputeVariable)

/-- The `type` attribute each node carries after construction. -/
def ComputeVariable.type : ComputeVariable → Descriptor
  | .getExistingVariable v => v.type
  | .buildConstant _ t => t
  | .applyOperation op _ => op.return_type

/-- The `isinstance(arg, BuildConstant)` test used by the constant-folding
branch of `resolve_symbols`. -/
def ComputeVariable.isBuildConstant : ComputeVariable → Bool
  | .buildConstant _ _ => true
  | _ => false

/-- `BuildConstant.__init__`: store the value and infer the descriptor,
`String` for string values and the basic `Float` descriptor for every other
value. -/
def BuildConstant (value : ConstValue) : ComputeVariable :=
  .buildConstant value (if value.isStr then stringDesc else floatDesc)

/-- `GetExistingVariable.__init__`: look the name up in the variable
registry, raising `InvalidOperation("Unknown variable %r")` when absent. -/
def GetExistingVariable (vd : VistrailData) (varname : String) :
    Except ExecErr ComputeVariable :=
  match vd.get_variable varname with
  | none => .error (.unknownVariable varname)
  | some v => .ok (.getExistingVariable v)

/-- `ApplyOperation.__init__`: run `find_operation` on the argument types and
store the chosen operation (the ambiguity-warning flag is a side effect of
the `warnings` module and is not part of the node). -/
def ApplyOperation (env : ExecEnv) (name : String)
    (args : List ComputeVariable) : Except ExecErr ComputeVariable :=
  match find_operation env.registry env.builtins name
      (args.map ComputeVariable.type) with
  | .error e => .error e
  | .ok (op, _warned) => .ok (.applyOperation op args)

/-! ## `resolve_symbols` (execution.py lines 74-94) -/

/-- An expression subtree as produced by `parse_expression`: the tagged
tuples `(SYMBOL, name)`, `(NUMBER, value)`, `(STRING, value)` and
`(OP, name, arg, ...)`. -/
inductive Expr where
  | sym (name : String)
  | num (n : Int)
  | str (s : String)
  | op (name : String) (args : List Expr)

/-- The dispatch of the four arithmetic constant-folding branches of
`resolve_symbols` on the two first constant arguments. -/
def foldArith (name : String) (a b : ConstValue) : Except ExecErr ConstValue :=
  if name = "+" then pyAdd a b
  else if name = "-" then pySub a b
  else if name = "*" then pyMul a b
  else pyDiv a b

/-- The body of the `OP` branch of `resolve_symbols` on the resolved
arguments: when every argument is a `BuildConstant` and the operator is one
of `+ - * /`, fold immediately by native arithmetic on `args[0].value` and
`args[1].value` (an `IndexError` when fewer than two arguments are present,
any further arguments being ignored, exactly as the source indexes only
positions 0 and 1); otherwise build an `ApplyOperation` node. -/
def resolveOpNode (env : ExecEnv) (name : String)
    (rargs : List ComputeVariable) : Except ExecErr ComputeVariable :=
  if rargs.all ComputeVariable.isBuildConstant &&
      (name = "+" || name = "-" || name = "*" || name = "/") then
    match rargs with
    | .buildConstant v1 _ :: .buildConstant v2 _ :: _ =>
        (foldArith name v1 v2).map BuildConstant
    | _ => .error .indexError
  else
    ApplyOperation env name rargs

mutual

/-- Embedding of `resolve_symbols(vistraildata, expr)`: build the compute
tree for an expression.  On an `OP` node all arguments are resolved first
and the node is folded or built by `resolveOpNode`. -/
def resolve_symbols (env : ExecEnv) (vd : VistrailData) :
    Expr → Except ExecErr ComputeVariable
  | .sym name => GetExistingVariable vd name
  | .num n => .ok (BuildConstant (.num n))
  | .str s => .ok (BuildConstant (.str s))
  | .op name args => do
      let rargs ← resolveSymbolsList env vd args
      resolveOpNode env name rargs

/-- The argument list comprehension of the `OP` branch of
`resolve_symbols`. -/
def resolveSymbolsList (env : ExecEnv) (vd : VistrailData) :
    List Expr → Except ExecErr (List ComputeVariable)
  | [] => .ok []
  | e :: rest => do
      let r ← resolve_symbols env vd e
      let rs ← resolveSymbolsList env vd rest
      .ok (r :: rs)

end

/-! ## Execution (`execute` methods and `apply_operation`) -/

/-- Modelled from the spec:
`vistrails_interface.call_operation_callback(op, callback, args)` (absent
from the source revision of `dat/vistrails_interface.py`) invokes the native
callback of the operation with the materialized argument Variables and
returns its result, which may be `None`. -/
def call_operation_callback (env : ExecEnv) (_op : Operation) (cbId : Nat)
    (args : List Variable) : Option Variable :=
  env.callbacks cbId args

/-- Modelled from the spec:
`vistrails_interface.apply_operation_subworkflow(controller, op, subworkflow,
args)` (absent from the source revision of `dat/vistrails_interface.py`)
instantiates a copy of the operation subworkflow template into the buffered
graph, wires each argument Variable designated output to the matching input
port and wraps the declared output as the result Variable.  The template
files live outside the repository, so the produced wrapper is abstracted as
an environment function of the subworkflow identity and the argument
list. -/
def apply_operation_subworkflow (env : ExecEnv) (_controller : Controller)
    (_op : Operation) (subworkflow : Option Nat) (args : List Variable) :
    Variable :=
  env.subworkflows (subworkflow.getD 0) args

/-- The provenance stamping at the end of `apply_operation`: if the produced
variable has no provenance, record `Operation` provenance with the operation
and the ordered argument list; otherwise leave it untouched. -/
def stampProvenance (op : Operation) (args : List Variable)
    (result : Variable) : Variable :=
  match result.provenance with
  | none => result.setProvenance (.operation op args)
  | some _ => result

/-- Embedding of `apply_operation(controller, op, args)` (execution.py lines
206-233): use the native callback when the operation has one, raising
`InvalidOperation("Package error: operation callback returned None")` on a
`None` result; otherwise instantiate the subworkflow.  Either way, stamp
`Operation` provenance when the result carries none. -/
def apply_operation (env : ExecEnv) (controller : Controller)
    (op : Operation) (args : List Variable) : Except ExecErr Variable :=
  match op.callback with
  | some cbId =>
      match call_operation_callback env op cbId args with
      | none => .error .operationImplementationError
      | some result => .ok (stampProvenance op args result)
  | none =>
      .ok (stampProvenance op args
        (apply_operation_subworkflow env controller op op.subworkflow args))

mutual

/-- The `execute(controller)` methods of the compute-node classes.
`GetExistingVariable.execute` returns the referenced wrapper through
`Variable.from_workflow` without recording materialization;
`BuildConstant.execute` buffers one literal module through a fresh
`PipelineGenerator` and sets its `value` function to `str(value)`;
`ApplyOperation.execute` executes the argument nodes depth-first
left-to-right and applies the chosen operation.  The controller id scope is
threaded explicitly. -/
def ComputeVariable.execute (env : ExecEnv) :
    ComputeVariable → Controller → Except ExecErr (Variable × Controller)
  | .getExistingVariable v, ctrl =>
      .ok (Variable.from_workflow v false, ctrl)
  | .buildConstant value ty, ctrl =>
      let (moduleId, ctrl2) := create_module_from_descriptor ctrl ty
      -- generator.add_module(module); generator.update_function(module,
      -- 'value', [str(self.value)])
      let generatorOps : List PipeOp :=
        [.addModule moduleId ty, .setFunction moduleId "value" [pyStr value]]
      .ok (Variable.mk ty generatorOps (some (moduleId, "value"))
        (some (.constant value)), ctrl2)
  | .applyOperation op args, ctrl => do
      let (vargs, ctrl2) ← ComputeVariable.executeList env args ctrl
      let v ← apply_operation env ctrl2 op vargs
      .ok (v, ctrl2)

/-- The `[arg.execute(controller) for arg in self._args]` comprehension of
`ApplyOperation.execute`. -/
def ComputeVariable.executeList (env : ExecEnv) :
    List ComputeVariable → Controller →
    Except ExecErr (List Variable × Controller)
  | [], ctrl => .ok ([], ctrl)
  | a :: rest, ctrl => do
      let (v, ctrl2) ← ComputeVariable.execute env a ctrl
      let (vs, ctrl3) ← ComputeVariable.executeList env rest ctrl2
      .ok (v :: vs, ctrl3)

end

/-! ## `perform_operation` (execution.py lines 97-113) -/

/-- Embedding of `perform_operation(expression)` from the point where
`parse_expression` has returned `(target, expr_tree)` (the parser lives in
`dat/operations/parsing.py`, outside the sources; `Variable` root-version
bookkeeping touches only host graph state that is not modelled).  The target
name is checked against the variable registry first, failing with
`InvalidOperation("Target variable %r already exists")` before any symbol
resolution or execution; then the tree is resolved, executed, and the result
registered under the target name. -/
def perform_operation (env : ExecEnv) (parsed : String × Expr)
    (vd : VistrailData) (ctrl : Controller) :
    Except ExecErr (VistrailData × Controller) :=
  let (target, expr_tree) := parsed
  if (vd.get_variable target).isSome then
    .error (.duplicateVariable target)
  else do
    let op_tree ← resolve_symbols env vd expr_tree
    let (newVar, ctrl2) ← op_tree.execute env ctrl
    .ok (vd.new_variable target newVar, ctrl2)

/-! ## The `Variable` builder of `dat/vistrails_interface.py` (lines 141-287)

The source of `dat/vistrails_interface.py` carries its own `Variable` class
(a pipeline builder mutated through `ModuleWrapper` objects).  It is embedded
in the `VI` namespace as an explicit state: the buffered operation list, the
id of the `OutputPort` module inherited from the `dat-vars` root version, the
ids of the modules created through `add_module`, and the
`_output_designated` flag. -/

namespace VI

/-- One entry of `Variable._operations`: an `('add', module)`, the function
ops produced by `controller.update_function_ops`, or an
`('add', connection)`. -/
inductive VIOp where
  | add_module (moduleId : Nat)
  | add_function (moduleId : Nat) (port : String) (value : String)
  | add_connection (srcId : Nat) (srcPort : String) (dstId : Nat)
      (dstPort : String)
  deriving DecidableEq

/-- A `ModuleWrapper`: it remembers the `Variable` it was created for (by
identity, modelled as a numeric id) and the module created for it. -/
structure ModuleWrapper where
  varId : Nat
  modId : Nat
  deriving DecidableEq

/-- The state of one `Variable` builder: its identity, the id of the
`OutputPort` module of the `dat-vars` root version, the controller id scope,
the ids of modules created for it so far, the `_output_designated` flag, and
the buffered `_operations` list. -/
structure VarState where
  varId : Nat
  outputModId : Nat
  nextId : Nat
  wrappers : List Nat
  outputDesignated : Bool
  operations : List VIOp
  deriving DecidableEq

/-- `Variable.add_module` / `ModuleWrapper.__init__`: create a module with a
fresh id, buffer an add operation and hand back the wrapper. -/
def add_module (s : VarState) : VarState × ModuleWrapper :=
  let mid := s.nextId
  ({ s with
      nextId := mid + 1,
      wrappers := s.wrappers ++ [mid],
      operations := s.operations ++ [.add_module mid] },
   ⟨s.varId, mid⟩)

/-- `ModuleWrapper.add_function`: buffer the function update for the wrapped
module (the source performs no check here). -/
def add_function (s : VarState) (w : ModuleWrapper) (port value : String) :
    VarState :=
  { s with operations := s.operations ++ [.add_function w.modId port value] }

/-- `ModuleWrapper.connect_outputport_to`: refuse wrappers of two different
Variables, else buffer the connection. -/
def connect_outputport_to (s : VarState) (w : ModuleWrapper)
    (outputportName : String) (other : ModuleWrapper)
    (inputportName : String) : Except String VarState :=
  if w.varId ≠ other.varId then
    .error "connect_outputport_to() can only connect modules of the same Variable"
  else
    .ok { s with operations := s.operations ++
      [.add_connection w.modId outputportName other.modId inputportName] }

/-- `Variable.select_output_port` (vistrails_interface.py lines 224-248):
refuse a module of a different Variable, then refuse a second call, then
buffer exactly one connection from the module to the `OutputPort` module
port `InternalPipe` and set the designated flag. -/
def select_output_port (s : VarState) (module : ModuleWrapper)
    (outputportName : String) : Except String VarState :=
  if module.varId ≠ s.varId then
    .error "select_output_port() designated a module from a different Variable"
  else if s.outputDesignated then
    .error "select_output_port() was called more than once"
  else
    .ok { s with
      operations := s.operations ++
        [.add_connection module.modId outputportName s.outputModId
          "InternalPipe"],
      outputDesignated := true }

/-- The operations a VisTrails package can perform on a `Variable` under
construction. -/
inductive Step where
  | add_module
  | add_function (w : ModuleWrapper) (port value : String)
  | connect (w : ModuleWrapper) (srcPort : String) (other : ModuleWrapper)
      (dstPort : String)
  | select_output (w : ModuleWrapper) (port : String)

/-- Effect of one operation on the builder state: a raised `ValueError`
leaves the state untouched (every mutation in the source happens after all
checks), and an operation performed through a wrapper of a different
Variable mutates that other Variable, not this one. -/
def runStep (s : VarState) : Step → VarState
  | .add_module => (add_module s).1
  | .add_function w port value =>
      if w.varId = s.varId then add_function s w port value else s
  | .connect w p other q =>
      if w.varId = s.varId then
        match connect_outputport_to s w p other q with
        | .ok s2 => s2
        | .error _ => s
      else s
  | .select_output w p =>
      match select_output_port s w p with
      | .ok s2 => s2
      | .error _ => s

/-- Wrapper authenticity for a step: a wrapper claiming to belong to this
Variable really was handed out by `add_module` (its module id is among the
created ones).  Only the destination wrapper of a connection matters for the
output-port invariant. -/
def stepAuth (s : VarState) : Step → Prop
  | .connect _ _ other _ => other.varId = s.varId → other.modId ∈ s.wrappers
  | _ => True

/-- Structural well-formedness of a builder state: the `OutputPort` module
of the root version is not one of the created modules, and all allocated ids
are below the id scope. -/
def WF (s : VarState) : Prop :=
  s.outputModId ∉ s.wrappers ∧ (∀ m ∈ s.wrappers, m < s.nextId) ∧
    s.outputModId < s.nextId

/-- Is this buffered operation a connection into the `OutputPort` module,
that is, an output-designating connection? -/
def isOutputConn (outId : Nat) : VIOp → Bool
  | .add_connection _ _ dstId _ => dstId = outId
  | _ => false

/-- The output-port invariant: the number of buffered output-designating
connections is one when the flag is set and zero before. -/
def Inv (s : VarState) : Prop :=
  s.operations.countP (isOutputConn s.outputModId) =
    (if s.outputDesignated then 1 else 0)

end VI

/-! ## `create_pipeline` (vistrails_interface.py lines 397-506) -/

/-- A function binding on a pipeline module (`module.functions` entries with
their parameter string values). -/
structure PFunc where
  name : String
  params : List String
  deriving DecidableEq

/-- A module of a committed pipeline: its id, descriptor and function
bindings. -/
structure PipeModule where
  id : Nat
  desc : Descriptor
  functions : List PFunc
  deriving DecidableEq

/-- A connection of a committed pipeline (source and destination module ids
and port names). -/
structure PConnection where
  sourceId : Nat
  sourceName : String
  destId : Nat
  destName : String
  deriving DecidableEq

/-- A committed pipeline: modules and connection list. -/
structure Pipeline where
  modules : List PipeModule
  connection_list : List PConnection
  deriving DecidableEq

/-- A DAT recipe as consumed by `create_pipeline`.  `plot` is the plot
template subgraph (the source loads it from the subworkflow XML file through
`XMLFileLocator`, a host facility; the loaded pipeline is carried
directly).  `vars` maps each plot parameter name to the committed pipeline
of the bound variable (the source fetches it from the vistrail by the
`dat-var-name` tag). -/
structure Recipe where
  plot : Pipeline
  vars : List (String × Pipeline)
  deriving DecidableEq

/-- One buffered edit of `create_pipeline`: note that an `addModule` carries
a full module object ( the source appends `('add', module)` with either a
freshly created module or an original one). -/
inductive CPOp where
  | addModule (m : PipeModule)
  | setFunction (moduleId : Nat) (fname : String) (params : List String)
  | addConnection (c : PConnection)
  deriving DecidableEq

/-- Native exceptions reachable from `create_pipeline`: a dict `KeyError`
and the `NameError` on `output_id` when a variable pipeline has no
`OutputPort` module named `value`. -/
inductive CPErr where
  | keyError
  | nameError
  deriving DecidableEq

/-- `get_descriptor_by_name('edu.utah.sci.vistrails.basic', 'InputPort')`. -/
def inputport_desc : Descriptor :=
  ⟨"edu.utah.sci.vistrails.basic", "InputPort", .cls 3 [.module]⟩

/-- `get_descriptor_by_name('edu.utah.sci.vistrails.basic', 'OutputPort')`. -/
def outputport_desc : Descriptor :=
  ⟨"edu.utah.sci.vistrails.basic", "OutputPort", .cls 4 [.module]⟩

/-- The scan of `_get_function` over the function list: the first function
with the requested name and at least one parameter yields that first
parameter; a matching function without parameters is passed over. -/
def getFunctionAux : List PFunc → String → Option String
  | [], _ => none
  | f :: rest, functionName =>
      if f.name = functionName then
        match f.params with
        | p :: _ => some p
        | [] => getFunctionAux rest functionName
      else getFunctionAux rest functionName

/-- Embedding of `_get_function(module, function_name)` (vistrails_interface
lines 387-394). -/
def _get_function (m : PipeModule) (functionName : String) : Option String :=
  getFunctionAux m.functions functionName

/-- The `for module in plot_pipeline.modules.itervalues()` loop of
`create_pipeline`: copy every non-`InputPort` module under a freshly minted
id (`create_module_from_descriptor`), buffer its function bindings, and map
the old id to the new module. -/
def copyPlotMods (ctrl : Controller) :
    List PipeModule → Controller × List CPOp × List (Nat × PipeModule)
  | [] => (ctrl, [], [])
  | m :: rest =>
      if m.desc = inputport_desc then copyPlotMods ctrl rest
      else
        let (newId, ctrl2) := create_module_from_descriptor ctrl m.desc
        let newModule : PipeModule := ⟨newId, m.desc, []⟩
        let (ctrl3, ops, map) := copyPlotMods ctrl2 rest
        (ctrl3,
         .addModule newModule ::
           (m.functions.map fun f => .setFunction newId f.name f.params)
           ++ ops,
         (m.id, newModule) :: map)

/-- The `for connection in plot_pipeline.connection_list` loop of
`create_pipeline`: a connection out of an `InputPort` placeholder records a
pending parameter socket (keyed by the placeholder `name` function, later
writes overriding earlier ones as in a Python dict); any other connection is
recreated between the copied modules.  A failing dict lookup is the Python
`KeyError`. -/
def copyPlotConns (plot : Pipeline) (map : List (Nat × PipeModule)) :
    List PConnection →
    Except CPErr (List CPOp × List (Option String × (PipeModule × String)))
  | [] => .ok ([], [])
  | c :: rest =>
      match plot.modules.find? fun m => m.id = c.sourceId with
      | none => .error .keyError
      | some src =>
          if src.desc = inputport_desc then
            match assocFind c.destId map with
            | none => .error .keyError
            | some dm => do
                let (ops, params) ← copyPlotConns plot map rest
                .ok (ops,
                  params ++ [(_get_function src "name", (dm, c.destName))])
          else
            match assocFind c.sourceId map, assocFind c.destId map with
            | some sm, some dm => do
                let (ops, params) ← copyPlotConns plot map rest
                .ok (.addConnection ⟨sm.id, c.sourceName, dm.id, c.destName⟩
                  :: ops, params)
            | _, _ => .error .keyError

/-- The `for module in pipeline.modules.itervalues()` loop over one variable
pipeline: the `OutputPort` module whose `name` function is `value` only sets
`output_id` (the last match winning, as repeated Python assignment); every
other module is appended to the edit list as the original object and entered
in `copy_modules` under its existing id. -/
def copyVarMods :
    List PipeModule → Option Nat × List CPOp × List (Nat × PipeModule)
  | [] => (none, [], [])
  | m :: rest =>
      let (oid, ops, map) := copyVarMods rest
      if m.desc = outputport_desc ∧ _get_function m "name" = some "value" then
        (some (oid.getD m.id), ops, map)
      else
        (oid, .addModule m :: ops, (m.id, m) :: map)

/-- The `for connection in pipeline.connection_list` loop over one variable
pipeline: the connection feeding the `OutputPort` module is rewired to the
pending plot parameter socket; every other connection is appended as the
original object.  An unassigned `output_id` is the Python `NameError` at the
first comparison; missing dict entries are `KeyError`. -/
def copyVarConns (param : Option String)
    (plotParams : List (Option String × (PipeModule × String)))
    (outputId : Option Nat) (copyMap : List (Nat × PipeModule)) :
    List PConnection → Except CPErr (List CPOp)
  | [] => .ok []
  | c :: rest =>
      match outputId with
      | none => .error .nameError
      | some oid =>
          if c.destId = oid then
            match assocFind param plotParams with
            | none => .error .keyError
            | some (vmod, vport) =>
                match assocFind c.sourceId copyMap with
                | none => .error .keyError
                | some sm => do
                    let ops ← copyVarConns param plotParams outputId copyMap
                      rest
                    .ok (.addConnection ⟨sm.id, c.sourceName, vmod.id, vport⟩
                      :: ops)
          else do
            let ops ← copyVarConns param plotParams outputId copyMap rest
            .ok (.addConnection c :: ops)

/-- The `for param, variable in recipe.variables.iteritems()` loop of
`create_pipeline`, inlining each bound variable subgraph. -/
def processVars
    (plotParams : List (Option String × (PipeModule × String))) :
    List (String × Pipeline) → Except CPErr (List CPOp)
  | [] => .ok []
  | (param, pipeline) :: rest => do
      let (oid, mops, cmap) := copyVarMods pipeline.modules
      let cops ← copyVarConns (some param) plotParams oid cmap
        pipeline.connection_list
      let restOps ← processVars plotParams rest
      .ok (mops ++ cops ++ restOps)

/-- Embedding of `create_pipeline(recipe)`: the ordered edit list handed to
`create_action` and the controller state after minting the fresh module ids.
The final `perform_action` commit and the returned `PipelineInformation`
version tag are host graph bookkeeping outside this model. -/
def create_pipeline (ctrl : Controller) (recipe : Recipe) :
    Except CPErr (List CPOp × Controller) := do
  let (ctrl2, plotOps, newMap) := copyPlotMods ctrl recipe.plot.modules
  let (connOps, plotParams) ←
    copyPlotConns recipe.plot newMap recipe.plot.connection_list
  let varOps ← processVars plotParams recipe.vars
  .ok (plotOps ++ connOps ++ varOps, ctrl2)

/-! ## Lemmas about the matcher loops -/

theorem mem_setAdd {A : Type} [DecidableEq A] {l : List A} {a x : A} :
    x ∈ setAdd l a ↔ x ∈ l ∨ x = a := by
  unfold setAdd
  split
  · constructor
    · exact fun h => Or.inl h
    · rintro (h | rfl) <;> assumption
  · simp [List.mem_append]

theorem self_mem_setAdd {A : Type} [DecidableEq A] (l : List A) (a : A) :
    a ∈ setAdd l a :=
  mem_setAdd.mpr (Or.inr rfl)

theorem mem_setAdd_of_mem {A : Type} [DecidableEq A] {l : List A} {x : A}
    (a : A) (h : x ∈ l) : x ∈ setAdd l a :=
  mem_setAdd.mpr (Or.inl h)

/-- Everything retained after scanning the types of `op` was already retained
or is `op` itself. -/
theorem typesLoop_subset (bases : List (ModClass × Nat)) (op : Operation) :
    ∀ (descs : List Descriptor) (retained : List Operation) (cur : Nat)
      (x : Operation), x ∈ (typesLoop bases op descs retained cur).1 →
      x ∈ retained ∨ x = op := by
  intro descs
  induction descs with
  | nil => intro retained cur x hx; exact Or.inl hx
  | cons d rest ih =>
      intro retained cur x hx
      cases hfind : assocFind d.module bases with
      | none =>
          simp only [typesLoop, hfind] at hx
          exact ih retained cur x hx
      | some score =>
          simp only [typesLoop, hfind] at hx
          by_cases hlt : score < cur
          · rw [if_pos hlt] at hx
            rcases ih [op] score x hx with h | h
            · simp at h; exact Or.inr h
            · exact Or.inr h
          · rw [if_neg hlt] at hx
            by_cases heq : score = cur
            · rw [if_pos heq] at hx
              rcases ih (setAdd retained op) cur x hx with h | h
              · rcases mem_setAdd.mp h with h2 | h2
                · exact Or.inl h2
                · exact Or.inr h2
              · exact Or.inr h
            · rw [if_neg heq] at hx
              exact ih retained cur x hx

/-- Everything retained after one argument position was already retained or
is one of the scanned operations. -/
theorem opsLoop_subset (bases : List (ModClass × Nat)) (i : Nat) :
    ∀ (ops retained : List Operation) (cur : Nat) (x : Operation),
      x ∈ (opsLoop bases i ops retained cur).1 → x ∈ retained ∨ x ∈ ops := by
  intro ops
  induction ops with
  | nil => intro retained cur x hx; exact Or.inl hx
  | cons op rest ih =>
      intro retained cur x hx
      rcases hpair : typesLoop bases op ((op.parameters.getD i ⟨[]⟩).types)
        retained cur with ⟨r2, c2⟩
      simp only [opsLoop, hpair] at hx
      rcases ih r2 c2 x hx with h | h
      · have h3 : x ∈ (typesLoop bases op
            ((op.parameters.getD i ⟨[]⟩).types) retained cur).1 := by
          rw [hpair]; exact h
        rcases typesLoop_subset bases op _ retained cur x h3 with h2 | h2
        · exact Or.inl h2
        · exact Or.inr (by simp [h2])
      · exact Or.inr (List.mem_cons_of_mem _ h)

theorem filterArg_subset (bases : List (ModClass × Nat)) (i : Nat)
    (ops : List Operation) (x : Operation)
    (hx : x ∈ filterArg bases i ops) : x ∈ ops := by
  rcases opsLoop_subset bases i ops [] sysMaxint x hx with h | h
  · cases h
  · exact h

/-- The survivors of all argument positions come from the candidate list. -/
theorem matchArgs_subset :
    ∀ (args : List Descriptor) (ops : List Operation) (i : Nat)
      (x : Operation), x ∈ matchArgs ops i args → x ∈ ops := by
  intro args
  induction args with
  | nil => intro ops i x hx; exact hx
  | cons actual rest ih =>
      intro ops i x hx
      simp only [matchArgs] at hx
      split at hx
      · cases hx
      · exact filterArg_subset _ _ _ _ (ih _ _ x hx)

/-- Once the running best score is 0, a retained operation is never dropped
and the score stays 0. -/
theorem typesLoop_stable_zero (bases : List (ModClass × Nat)) (op : Operation) :
    ∀ (descs : List Descriptor) (retained : List Operation) (op0 : Operation),
      op0 ∈ retained →
      op0 ∈ (typesLoop bases op descs retained 0).1 ∧
        (typesLoop bases op descs retained 0).2 = 0 := by
  intro descs
  induction descs with
  | nil => intro retained op0 h; exact ⟨h, rfl⟩
  | cons d rest ih =>
      intro retained op0 h
      cases hfind : assocFind d.module bases with
      | none =>
          simp only [typesLoop, hfind]
          exact ih retained op0 h
      | some score =>
          simp only [typesLoop, hfind]
          have hnlt : ¬ score < 0 := Nat.not_lt_zero score
          rw [if_neg hnlt]
          by_cases heq : score = 0
          · rw [if_pos heq]
            exact ih (setAdd retained op) op0 (mem_setAdd_of_mem op h)
          · rw [if_neg heq]
            exact ih retained op0 h

/-- When some acceptable type of `op` has ancestry distance 0, the scan of
the types of `op` retains `op` and drops the best score to 0. -/
theorem typesLoop_hits_zero (bases : List (ModClass × Nat)) (op : Operation) :
    ∀ (descs : List Descriptor) (retained : List Operation) (cur : Nat),
      (∃ d ∈ descs, assocFind d.module bases = some 0) →
      op ∈ (typesLoop bases op descs retained cur).1 ∧
        (typesLoop bases op descs retained cur).2 = 0 := by
  intro descs
  induction descs with
  | nil => rintro retained cur ⟨d, hd, _⟩; cases hd
  | cons d0 rest ih =>
      rintro retained cur ⟨d, hd, hlook⟩
      rcases List.mem_cons.mp hd with rfl | hdrest
      · simp only [typesLoop, hlook]
        by_cases hlt : (0 : Nat) < cur
        · rw [if_pos hlt]
          exact typesLoop_stable_zero bases op rest [op] op (by simp)
        · have hcur : cur = 0 := Nat.eq_zero_of_not_pos hlt
          subst hcur
          rw [if_neg hlt, if_pos rfl]
          exact typesLoop_stable_zero bases op rest (setAdd retained op) op
            (self_mem_setAdd retained op)
      · cases hfind : assocFind d0.module bases with
        | none =>
            simp only [typesLoop, hfind]
            exact ih retained cur ⟨d, hdrest, hlook⟩
        | some score =>
            simp only [typesLoop, hfind]
            by_cases hlt : score < cur
            · rw [if_pos hlt]; exact ih [op] score ⟨d, hdrest, hlook⟩
            · rw [if_neg hlt]
              by_cases heq : score = cur
              · rw [if_pos heq]
                exact ih (setAdd retained op) cur ⟨d, hdrest, hlook⟩
              · rw [if_neg heq]
                exact ih retained cur ⟨d, hdrest, hlook⟩

/-- Once the running best score is 0 and an operation is retained, scanning
any further operations keeps it retained at score 0. -/
theorem opsLoop_stable_zero (bases : List (ModClass × Nat)) (i : Nat) :
    ∀ (ops retained : List Operation) (op0 : Operation), op0 ∈ retained →
      op0 ∈ (opsLoop bases i ops retained 0).1 ∧
        (opsLoop bases i ops retained 0).2 = 0 := by
  intro ops
  induction ops with
  | nil => intro retained op0 h; exact ⟨h, rfl⟩
  | cons op rest ih =>
      intro retained op0 h
      simp only [opsLoop]
      obtain ⟨h1, h2⟩ := typesLoop_stable_zero bases op
        ((op.parameters.getD i ⟨[]⟩).types) retained op0 h
      rcases hpair : typesLoop bases op ((op.parameters.getD i ⟨[]⟩).types)
        retained 0 with ⟨r2, c2⟩
      rw [hpair] at h1 h2
      simp only at h1 h2
      subst h2
      exact ih r2 op0 h1

/-- Splitting the operation scan at one operation. -/
theorem opsLoop_append (bases : List (ModClass × Nat)) (i : Nat) :
    ∀ (l1 l2 retained : List Operation) (cur : Nat),
      opsLoop bases i (l1 ++ l2) retained cur =
        opsLoop bases i l2 (opsLoop bases i l1 retained cur).1
          (opsLoop bases i l1 retained cur).2 := by
  intro l1
  induction l1 with
  | nil => intro l2 retained cur; rfl
  | cons op rest ih =>
      intro l2 retained cur
      simp only [List.cons_append, opsLoop]
      exact ih l2 _ _

/-- Every operation returned by `find_operation` passed the arity filter. -/
theorem find_operation_ok_mem_filter (registry : List Operation)
    (builtins : List (String × List Operation)) (name : String)
    (args : List Descriptor) (op : Operation) (warned : Bool)
    (hok : find_operation registry builtins name args = .ok (op, warned)) :
    op ∈ find_operation_matching registry builtins name args := by
  unfold find_operation at hok
  split at hok
  · cases hok
  · split at hok
    · cases hok
    · have hmem : op ∈ matchArgs
          (find_operation_matching registry builtins name args) 0 args := by
        split at hok
        · cases hok
        · cases hok
          simp_all
        · cases hok
          simp_all
      exact matchArgs_subset args _ 0 op hmem

/-- Claim C3: when at least one candidate operation has the requested name
but none has the requested parameter count, `find_operation` fails with the
`ArityMismatch` error, and any operation it ever returns has exactly as many
parameters as there are arguments. -/
theorem claim_C3_arity (registry : List Operation)
    (builtins : List (String × List Operation)) (name : String)
    (args : List Descriptor) :
    ((find_operation_candidates registry builtins name ≠ [] ∧
        ∀ op ∈ find_operation_candidates registry builtins name,
          op.parameters.length ≠ args.length) →
      find_operation registry builtins name args =
        .error (.arityMismatch name args.length)) ∧
    (∀ op warned,
      find_operation registry builtins name args = .ok (op, warned) →
      op.parameters.length = args.length) := by
  constructor
  · rintro ⟨h1, h2⟩
    have hfilter : find_operation_matching registry builtins name args
        = [] := by
      rw [find_operation_matching, List.filter_eq_nil_iff]
      intro a ha
      simpa using h2 a ha
    unfold find_operation
    rw [if_neg (by simpa [List.isEmpty_iff] using h1)]
    rw [hfilter]
    rfl
  · intro op warned hok
    have := find_operation_ok_mem_filter registry builtins name args op
      warned hok
    rw [find_operation_matching] at this
    simpa using (List.mem_filter.mp this).2

/-- Claim C4: an operation accepting the argument concrete type at ancestry
distance 0 at position `i` is always retained by the elimination pass for
that position, whatever the competing operations are. -/
theorem claim_C4_exact_match (actual : Descriptor) (i : Nat)
    (ops : List Operation) (op : Operation) (hmem : op ∈ ops)
    (hexact : ∃ d ∈ (op.parameters.getD i ⟨[]⟩).types,
      assocFind d.module (parent_modules actual.module) = some 0) :
    op ∈ filterArg (parent_modules actual.module) i ops := by
  obtain ⟨l1, l2, rfl⟩ := List.append_of_mem hmem
  unfold filterArg
  rw [opsLoop_append]
  rcases h1 : opsLoop (parent_modules actual.module) i l1 [] sysMaxint
    with ⟨r1, c1⟩
  obtain ⟨hop, hc2⟩ := typesLoop_hits_zero (parent_modules actual.module) op
    ((op.parameters.getD i ⟨[]⟩).types) r1 c1 hexact
  rcases h2 : typesLoop (parent_modules actual.module) op
    ((op.parameters.getD i ⟨[]⟩).types) r1 c1 with ⟨r2, c2⟩
  rw [h2] at hop hc2
  simp only at hop hc2
  subst hc2
  simp only [opsLoop, h2]
  exact (opsLoop_stable_zero (parent_modules actual.module) i l2 r2 op hop).1

/-- Claim C5: with candidates of the right name and arity present, more than
one survivor of the argument scan yields a non-fatal ambiguity warning and
one member of the surviving set is still returned; a unique survivor is
returned without the warning. -/
theorem claim_C5_ambiguity (registry : List Operation)
    (builtins : List (String × List Operation)) (name : String)
    (args : List Descriptor)
    (h1 : (find_operation_candidates registry builtins name).isEmpty = false)
    (h2 : (find_operation_matching registry builtins name args).isEmpty
      = false) :
    (∀ a b t, matchArgs (find_operation_matching registry builtins name args)
        0 args = a :: b :: t →
      find_operation registry builtins name args = .ok (a, true) ∧
      a ∈ matchArgs (find_operation_matching registry builtins name args)
        0 args) ∧
    (∀ a, matchArgs (find_operation_matching registry builtins name args)
        0 args = [a] →
      find_operation registry builtins name args = .ok (a, false)) := by
  constructor
  · intro a b t hs
    constructor
    · unfold find_operation
      rw [h1]
      simp only [Bool.false_eq_true, if_false]
      rw [h2]
      simp only [Bool.false_eq_true, if_false]
      rw [hs]
    · rw [hs]; simp
  · intro a hs
    unfold find_operation
    rw [h1]
    simp only [Bool.false_eq_true, if_false]
    rw [h2]
    simp only [Bool.false_eq_true, if_false]
    rw [hs]

/-! ## Concrete fixtures for witnesses -/

/-- A concrete module class directly below `Module`. -/
def wX : ModClass := .cls 10 [.module]

/-- A concrete module class inheriting `wX`. -/
def wY : ModClass := .cls 11 [wX]

/-- Descriptor of `wX`. -/
def wdescX : Descriptor := ⟨"tests", "X", wX⟩

/-- Descriptor of `wY`. -/
def wdescY : Descriptor := ⟨"tests", "Y", wY⟩

/-- A unary operation `g` accepting exactly `wX`. -/
def opGX : Operation := ⟨"g", true, [⟨[wdescX]⟩], wdescX, none, some 1⟩

/-- A second unary operation `g` also accepting exactly `wX`. -/
def opGX2 : Operation := ⟨"g", true, [⟨[wdescX]⟩], wdescY, none, some 2⟩

/-- A unary operation `g` accepting only `wY`. -/
def opGY : Operation := ⟨"g", true, [⟨[wdescY]⟩], wdescX, none, some 3⟩

/-- A binary operation `h`. -/
def opH2 : Operation :=
  ⟨"h", true, [⟨[wdescX]⟩, ⟨[wdescX]⟩], wdescX, none, some 4⟩

/-- Witness for claim C3 at concrete inputs: the only `h` operation is
binary, so a unary call raises the arity error. -/
theorem claim_C3_arity_witness :
    (find_operation_candidates [opH2] [] "h" ≠ [] ∧
      ∀ op ∈ find_operation_candidates [opH2] [] "h",
        op.parameters.length ≠ ([wdescX] : List Descriptor).length) ∧
    find_operation [opH2] [] "h" [wdescX] =
      .error (.arityMismatch "h" 1) :=
  ⟨⟨by decide, by decide⟩,
    (claim_C3_arity [opH2] [] "h" [wdescX]).1 ⟨by decide, by decide⟩⟩

/-- Witness for claim C4 at concrete inputs: `opGX` matches the argument
type exactly and survives position 0 even though `opGY` does not match. -/
theorem claim_C4_exact_match_witness :
    opGX ∈ [opGY, opGX] ∧
    (∃ d ∈ (opGX.parameters.getD 0 ⟨[]⟩).types,
      assocFind d.module (parent_modules wdescX.module) = some 0) ∧
    opGX ∈ filterArg (parent_modules wdescX.module) 0 [opGY, opGX] :=
  ⟨by decide, by decide,
    claim_C4_exact_match wdescX 0 [opGY, opGX] opGX (by decide) (by decide)⟩

/-- Witness for claim C5 at concrete inputs: two `g` operations both accept
the argument type exactly, so both survive; the call warns and returns the
first survivor.  With a single candidate no warning is emitted. -/
theorem claim_C5_ambiguity_witness :
    (find_operation_candidates [opGX, opGX2] [] "g").isEmpty = false ∧
    (find_operation_matching [opGX, opGX2] [] "g" [wdescX]).isEmpty
      = false ∧
    find_operation [opGX, opGX2] [] "g" [wdescX] = .ok (opGX, true) ∧
    opGX ∈ matchArgs (find_operation_matching [opGX, opGX2] [] "g" [wdescX])
      0 [wdescX] ∧
    find_operation [opGX] [] "g" [wdescX] = .ok (opGX, false) :=
  ⟨by decide, by decide,
    ((claim_C5_ambiguity [opGX, opGX2] [] "g" [wdescX] (by decide)
      (by decide)).1 opGX opGX2 [] (by decide)).1,
    ((claim_C5_ambiguity [opGX, opGX2] [] "g" [wdescX] (by decide)
      (by decide)).1 opGX opGX2 [] (by decide)).2,
    (claim_C5_ambiguity [opGX] [] "g" [wdescX] (by decide)
      (by decide)).2 opGX (by decide)⟩

/-! ## Claim C1: constant folding of numeric expressions -/

mutual

/-- The class of expressions built solely from numeric literals and the four
binary arithmetic operators. -/
def arithExpr : Expr → Bool
  | .num _ => true
  | .op name args =>
      (name = "+" || name = "-" || name = "*" || name = "/") &&
        args.length == 2 && arithExprList args
  | _ => false

/-- All members of the list are arithmetic expressions. -/
def arithExprList : List Expr → Bool
  | [] => true
  | e :: rest => arithExpr e && arithExprList rest

end

mutual

/-- Direct evaluation of an arithmetic expression with the native Python
operators (the reference semantics the folded constant is compared
against). -/
def evalArith : Expr → Except ExecErr ConstValue
  | .num n => .ok (.num n)
  | .str s => .ok (.str s)
  | .sym _ => .error .typeError
  | .op name args => do
      let vs ← evalArithList args
      match vs with
      | va :: vb :: _ => foldArith name va vb
      | _ => .error .indexError

/-- Direct evaluation of a list of expressions, left to right. -/
def evalArithList : List Expr → Except ExecErr (List ConstValue)
  | [] => .ok []
  | e :: rest => do
      let v ← evalArith e
      let vs ← evalArithList rest
      .ok (v :: vs)

end

/-- Number of module-creating edits in a buffered edit list. -/
def countAddModules (ops : List PipeOp) : Nat :=
  ops.countP fun o =>
    match o with
    | .addModule _ _ => true
    | _ => false

theorem evalArithList_length :
    ∀ (l : List Expr) (vs : List ConstValue),
      evalArithList l = .ok vs → vs.length = l.length := by
  intro l
  induction l with
  | nil => intro vs h; cases h; rfl
  | cons e rest ih =>
      intro vs h
      simp only [evalArithList] at h
      cases he : evalArith e with
      | error _ => rw [he] at h; cases h
      | ok v =>
          rw [he] at h
          cases hr : evalArithList rest with
          | error _ => rw [hr] at h; cases h
          | ok vs2 =>
              rw [hr] at h
              cases h
              simp [ih vs2 hr]

/-- On the all-constant arguments of an arithmetic operator,
`resolveOpNode` folds to the `BuildConstant` of the native arithmetic
result. -/
theorem resolveOpNode_fold (env : ExecEnv) (name : String)
    (v1 v2 : ConstValue)
    (hname : name = "+" ∨ name = "-" ∨ name = "*" ∨ name = "/") :
    resolveOpNode env name [BuildConstant v1, BuildConstant v2] =
      (foldArith name v1 v2).map BuildConstant := by
  have hcond : ([BuildConstant v1, BuildConstant v2].all
      ComputeVariable.isBuildConstant &&
      (name = "+" || name = "-" || name = "*" || name = "/")) = true := by
    rcases hname with rfl | rfl | rfl | rfl <;> rfl
  unfold resolveOpNode
  rw [if_pos hcond]
  show (match [BuildConstant v1, BuildConstant v2] with
    | .buildConstant w1 _ :: .buildConstant w2 _ :: _ =>
        (foldArith name w1 w2).map BuildConstant
    | _ => .error .indexError) = (foldArith name v1 v2).map BuildConstant
  rfl

mutual

/-- On the arithmetic fragment, `resolve_symbols` is exactly direct
evaluation followed by `BuildConstant`: the whole tree folds to a single
constant node. -/
theorem resolve_arith (env : ExecEnv) (vd : VistrailData) :
    (t : Expr) → arithExpr t = true →
    resolve_symbols env vd t = (evalArith t).map BuildConstant
  | .num n, _ => by simp [resolve_symbols, evalArith, Except.map]
  | .str _, h => by simp [arithExpr] at h
  | .sym _, h => by simp [arithExpr] at h
  | .op name args, h => by
      simp only [arithExpr, Bool.and_eq_true, beq_iff_eq] at h
      obtain ⟨⟨ hname, hlen⟩, hall⟩ := h
      have hname2 : name = "+" ∨ name = "-" ∨ name = "*" ∨
          name = "/" := by
        simpa [or_assoc] using hname
      have hlist := resolve_arith_list env vd args hall
      simp only [resolve_symbols, evalArith]
      rw [hlist]
      cases heval : evalArithList args with
      | error e => rfl
      | ok vs =>
          have hvslen : vs.length = 2 := by
            rw [evalArithList_length args vs heval]; exact hlen
          match vs, hvslen with
          | [v1, v2], _ =>
              show resolveOpNode env name [BuildConstant v1, BuildConstant v2]
                = _
              rw [resolveOpNode_fold env name v1 v2 hname2]
              rfl

/-- List version of `resolve_arith`. -/
theorem resolve_arith_list (env : ExecEnv) (vd : VistrailData) :
    (l : List Expr) → arithExprList l = true →
    resolveSymbolsList env vd l =
      (evalArithList l).map (List.map BuildConstant)
  | [], _ => rfl
  | e :: rest, h => by
      simp only [arithExprList, Bool.and_eq_true] at h
      obtain ⟨ h1, h2⟩ := h
      have he := resolve_arith env vd e h1
      have hr := resolve_arith_list env vd rest h2
      simp only [resolveSymbolsList, evalArithList]
      rw [he, hr]
      cases heval : evalArith e with
      | error _ => rfl
      | ok v =>
          cases hevalr : evalArithList rest with
          | error _ => rfl
          | ok vs => rfl

end

/-- Claim C1: an expression built solely from numeric literals and
`+ - * /` that evaluates without error resolves to a single folded
`BuildConstant`, and its materialization buffers exactly one literal module
whose `value` function is the string rendering of the direct evaluation of
the expression — no operation-application module is created. -/
theorem claim_C1_constant_folding (env : ExecEnv) (vd : VistrailData)
    (t : Expr) (v : ConstValue) (harith : arithExpr t = true)
    (heval : evalArith t = .ok v) :
    resolve_symbols env vd t = .ok (BuildConstant v) ∧
    ∀ ctrl : Controller, ∃ var : Variable,
      ComputeVariable.execute env (BuildConstant v) ctrl =
        .ok (var, ⟨ctrl.nextId + 1⟩) ∧
      var.generator =
        [.addModule ctrl.nextId (ComputeVariable.type (BuildConstant v)),
         .setFunction ctrl.nextId "value" [pyStr v]] ∧
      countAddModules var.generator = 1 ∧
      var.output = some (ctrl.nextId, "value") ∧
      var.provenance = some (.constant v) := by
  constructor
  · rw [resolve_arith env vd t harith, heval]; rfl
  · intro ctrl
    refine ⟨Variable.mk (ComputeVariable.type (BuildConstant v))
      [.addModule ctrl.nextId (ComputeVariable.type (BuildConstant v)),
       .setFunction ctrl.nextId "value" [pyStr v]]
      (some (ctrl.nextId, "value")) (some (.constant v)),
      rfl, rfl, rfl, rfl, rfl⟩

/-- The empty execution context used by concrete witnesses. -/
def envEmpty : ExecEnv :=
  ⟨[], [], fun _ _ => none, fun _ _ => Variable.mk floatDesc [] none none⟩

/-- The empty variable registry. -/
def vdEmpty : VistrailData := ⟨[]⟩

/-- Witness for claim C1 at the spec scenario `a = 2 + 3`: the tree folds to
the constant 5, materialized as one literal module valued `"5"`. -/
theorem claim_C1_constant_folding_witness :
    arithExpr (.op "+" [.num 2, .num 3]) = true ∧
    evalArith (.op "+" [.num 2, .num 3]) = .ok (.num 5) ∧
    resolve_symbols envEmpty vdEmpty (.op "+" [.num 2, .num 3]) =
      .ok (BuildConstant (.num 5)) ∧
    ∃ var : Variable,
      ComputeVariable.execute envEmpty (BuildConstant (.num 5)) ⟨0⟩ =
        .ok (var, ⟨1⟩) ∧
      var.generator =
        [.addModule 0 (ComputeVariable.type (BuildConstant (.num 5))),
         .setFunction 0 "value" [pyStr (.num 5)]] ∧
      countAddModules var.generator = 1 ∧
      var.output = some (0, "value") ∧
      var.provenance = some (.constant (.num 5)) :=
  ⟨rfl, rfl,
    (claim_C1_constant_folding envEmpty vdEmpty (.op "+" [.num 2, .num 3])
      (.num 5) rfl rfl).1,
    (claim_C1_constant_folding envEmpty vdEmpty (.op "+" [.num 2, .num 3])
      (.num 5) rfl rfl).2 ⟨0⟩⟩

/-- Claim C10: every non-string constant value (integer literals and folded
results alike) receives the basic `Float` descriptor — never an integer
type — and materializes as one module whose `value` function is `str(value)`
with `(module, value)` designated as the output. -/
theorem claim_C10_constant_typing (v : ConstValue) (hv : v.isStr = false) :
    ComputeVariable.type (BuildConstant v) = floatDesc ∧
    ∀ (env : ExecEnv) (ctrl : Controller), ∃ var : Variable,
      ComputeVariable.execute env (BuildConstant v) ctrl =
        .ok (var, ⟨ctrl.nextId + 1⟩) ∧
      var.generator =
        [.addModule ctrl.nextId floatDesc,
         .setFunction ctrl.nextId "value" [pyStr v]] ∧
      countAddModules var.generator = 1 ∧
      var.output = some (ctrl.nextId, "value") := by
  have hty : ComputeVariable.type (BuildConstant v) = floatDesc := by
    show (if v.isStr then stringDesc else floatDesc) = floatDesc
    rw [hv]
    rfl
  refine ⟨hty, ?_⟩
  intro env ctrl
  refine ⟨Variable.mk (ComputeVariable.type (BuildConstant v))
    [.addModule ctrl.nextId (ComputeVariable.type (BuildConstant v)),
     .setFunction ctrl.nextId "value" [pyStr v]]
    (some (ctrl.nextId, "value")) (some (.constant v)),
    rfl, by rw [hty]; rfl, rfl, rfl⟩

/-- Witness for claim C10 at the integer literal 7. -/
theorem claim_C10_constant_typing_witness :
    ConstValue.isStr (.num 7) = false ∧
    ComputeVariable.type (BuildConstant (.num 7)) = floatDesc ∧
    ∃ var : Variable,
      ComputeVariable.execute envEmpty (BuildConstant (.num 7)) ⟨3⟩ =
        .ok (var, ⟨4⟩) ∧
      var.generator =
        [.addModule 3 floatDesc, .setFunction 3 "value" [pyStr (.num 7)]] ∧
      countAddModules var.generator = 1 ∧
      var.output = some (3, "value") :=
  ⟨rfl, (claim_C10_constant_typing (.num 7) rfl).1,
    (claim_C10_constant_typing (.num 7) rfl).2 envEmpty ⟨3⟩⟩

/-- Claim C6: whenever the target name of an expression is already a known
variable (the self-alias `c = c` included), `perform_operation` fails with
the duplicate-variable error before resolving or executing anything — the
result is an error for every right-hand side whatsoever, so no edit is
buffered and the registry is unchanged. -/
theorem claim_C6_duplicate_target (env : ExecEnv) (parsed : String × Expr)
    (vd : VistrailData) (ctrl : Controller)
    (h : (vd.get_variable parsed.1).isSome = true) :
    perform_operation env parsed vd ctrl =
      .error (.duplicateVariable parsed.1) := by
  rcases parsed with ⟨target, expr⟩
  simp only [perform_operation]
  rw [if_pos h]

/-- A concrete committed variable wrapper. -/
def varC : Variable := Variable.mk floatDesc [] (some (0, "value")) none

/-- A registry owning the single variable `c`. -/
def vdC : VistrailData := ⟨[("c", varC)]⟩

/-- Witness for claim C6 at the spec scenario `c = c`. -/
theorem claim_C6_duplicate_target_witness :
    (vdC.get_variable "c").isSome = true ∧
    perform_operation envEmpty ("c", .sym "c") vdC ⟨5⟩ =
      .error (.duplicateVariable "c") :=
  ⟨rfl, claim_C6_duplicate_target envEmpty ("c", .sym "c") vdC ⟨5⟩ rfl⟩

/-- Claim C7: a bare symbol naming an existing variable resolves to a
reference node whose execution hands back the very same wrapper object with
untouched provenance; a symbol naming no variable fails with the
unknown-variable error. -/
theorem claim_C7_variable_reference (vd : VistrailData) (name : String) :
    (∀ v, vd.get_variable name = some v →
      GetExistingVariable vd name = .ok (.getExistingVariable v) ∧
      ∀ (env : ExecEnv) (ctrl : Controller),
        ComputeVariable.execute env (.getExistingVariable v) ctrl =
          .ok (v, ctrl)) ∧
    (vd.get_variable name = none →
      GetExistingVariable vd name = .error (.unknownVariable name) ∧
      ∀ env : ExecEnv, resolve_symbols env vd (.sym name) =
        .error (.unknownVariable name)) := by
  constructor
  · intro v hv
    constructor
    · simp [GetExistingVariable, hv]
    · intro env ctrl
      rfl
  · intro hnone
    constructor
    · simp [GetExistingVariable, hnone]
    · intro env
      simp [resolve_symbols, GetExistingVariable, hnone]

/-- Witness for claim C7: aliasing the existing `c` returns the stored
wrapper unchanged; the unknown name `z` fails. -/
theorem claim_C7_variable_reference_witness :
    vdC.get_variable "c" = some varC ∧
    GetExistingVariable vdC "c" = .ok (.getExistingVariable varC) ∧
    ComputeVariable.execute envEmpty (.getExistingVariable varC) ⟨9⟩ =
      .ok (varC, ⟨9⟩) ∧
    vdC.get_variable "z" = none ∧
    resolve_symbols envEmpty vdC (.sym "z") =
      .error (.unknownVariable "z") :=
  ⟨rfl,
    ((claim_C7_variable_reference vdC "c").1 varC rfl).1,
    ((claim_C7_variable_reference vdC "c").1 varC rfl).2 envEmpty ⟨9⟩,
    rfl,
    ((claim_C7_variable_reference vdC "z").2 rfl).2 envEmpty⟩

/-- Claim C8: with a native callback present, `apply_operation` invokes it
on the materialized argument wrappers; a `None` result is the
implementation-error failure (nothing is returned, hence nothing can be
committed), a result without provenance is stamped with the operation and
the ordered argument list, and a result with provenance is returned
untouched. -/
theorem claim_C8_callback (env : ExecEnv) (ctrl : Controller)
    (op : Operation) (args : List Variable) (cbId : Nat)
    (hcb : op.callback = some cbId) :
    (env.callbacks cbId args = none →
      apply_operation env ctrl op args =
        .error .operationImplementationError) ∧
    (∀ r, env.callbacks cbId args = some r → r.provenance = none →
      apply_operation env ctrl op args =
        .ok (r.setProvenance (.operation op args))) ∧
    (∀ r p, env.callbacks cbId args = some r → r.provenance = some p →
      apply_operation env ctrl op args = .ok r) := by
  refine ⟨?_, ?_, ?_⟩
  · intro h
    simp [apply_operation, hcb, call_operation_callback, h]
  · intro r hr hprov
    simp [apply_operation, hcb, call_operation_callback, hr,
      stampProvenance, hprov]
  · intro r p hr hprov
    simp [apply_operation, hcb, call_operation_callback, hr,
      stampProvenance, hprov]

/-- A wrapper without provenance. -/
def varNoProv : Variable := Variable.mk floatDesc [] (some (1, "value")) none

/-- A wrapper already carrying provenance. -/
def varProv : Variable :=
  Variable.mk floatDesc [] (some (2, "value")) (some (.constant (.num 1)))

/-- Callback environment for the C8 witness: callback 0 returns `None`,
callback 1 a wrapper without provenance, callback 2 one with provenance. -/
def envCB : ExecEnv :=
  ⟨[], [], fun i _ =>
      if i = 0 then none
      else if i = 1 then some varNoProv
      else some varProv,
    fun _ _ => Variable.mk floatDesc [] none none⟩

/-- An operation whose callback is entry 0. -/
def opCB0 : Operation := ⟨"f", true, [], floatDesc, some 0, none⟩

/-- An operation whose callback is entry 1. -/
def opCB1 : Operation := ⟨"f", true, [], floatDesc, some 1, none⟩

/-- An operation whose callback is entry 2. -/
def opCB2 : Operation := ⟨"f", true, [], floatDesc, some 2, none⟩

/-- Witness for claim C8 at concrete callbacks covering the three cases. -/
theorem claim_C8_callback_witness :
    opCB0.callback = some 0 ∧
    envCB.callbacks 0 [] = none ∧
    apply_operation envCB ⟨0⟩ opCB0 [] =
      .error .operationImplementationError ∧
    envCB.callbacks 1 [] = some varNoProv ∧
    varNoProv.provenance = none ∧
    apply_operation envCB ⟨0⟩ opCB1 [] =
      .ok (varNoProv.setProvenance (.operation opCB1 [])) ∧
    envCB.callbacks 2 [] = some varProv ∧
    varProv.provenance = some (.constant (.num 1)) ∧
    apply_operation envCB ⟨0⟩ opCB2 [] = .ok varProv :=
  ⟨rfl, rfl,
    (claim_C8_callback envCB ⟨0⟩ opCB0 [] 0 rfl).1 rfl,
    rfl, rfl,
    (claim_C8_callback envCB ⟨0⟩ opCB1 [] 1 rfl).2.1 varNoProv rfl rfl,
    rfl, rfl,
    (claim_C8_callback envCB ⟨0⟩ opCB2 [] 2 rfl).2.2 varProv
      (.constant (.num 1)) rfl rfl⟩

/-- Effect of `add_function` through a foreign wrapper: this Variable is
untouched. -/
theorem runStep_add_function_ne (s : VI.VarState) (w : VI.ModuleWrapper)
    (port value : String) (hw : ¬ w.varId = s.varId) :
    VI.runStep s (.add_function w port value) = s := by
  simp [VI.runStep, hw]

/-- Effect of `add_function` through an own wrapper. -/
theorem runStep_add_function_eq (s : VI.VarState) (w : VI.ModuleWrapper)
    (port value : String) (hw : w.varId = s.varId) :
    VI.runStep s (.add_function w port value) =
      VI.add_function s w port value := by
  simp [VI.runStep, hw]

/-- Effect of `connect_outputport_to` through a foreign wrapper. -/
theorem runStep_connect_ne (s : VI.VarState) (w other : VI.ModuleWrapper)
    (p q : String) (hw : ¬ w.varId = s.varId) :
    VI.runStep s (.connect w p other q) = s := by
  simp [VI.runStep, hw]

/-- Effect of `connect_outputport_to` on wrappers of different Variables:
the `ValueError` leaves the state untouched. -/
theorem runStep_connect_diff (s : VI.VarState) (w other : VI.ModuleWrapper)
    (p q : String) (hw : w.varId = s.varId)
    (hsame : w.varId ≠ other.varId) :
    VI.runStep s (.connect w p other q) = s := by
  simp only [VI.runStep, hw, if_pos, VI.connect_outputport_to]
  rw [if_pos (show s.varId ≠ other.varId from fun hc => hsame (hw.trans hc))]

/-- Effect of a legal `connect_outputport_to`: one buffered connection. -/
theorem runStep_connect_ok (s : VI.VarState) (w other : VI.ModuleWrapper)
    (p q : String) (hw : w.varId = s.varId)
    (hsame : w.varId = other.varId) :
    VI.runStep s (.connect w p other q) = { s with
      operations := s.operations ++
        [.add_connection w.modId p other.modId q] } := by
  have heq : s.varId = other.varId := hw.symm.trans hsame
  simp only [VI.runStep, hw, if_pos, VI.connect_outputport_to]
  rw [if_neg (by simp [heq])]

/-- Effect of `select_output_port` through a foreign wrapper: the
`ValueError` leaves the state untouched. -/
theorem runStep_select_ne (s : VI.VarState) (w : VI.ModuleWrapper)
    (p : String) (hw : w.varId ≠ s.varId) :
    VI.runStep s (.select_output w p) = s := by
  simp only [VI.runStep, VI.select_output_port]
  rw [if_pos hw]

/-- Effect of a second `select_output_port`: the `ValueError` leaves the
state untouched. -/
theorem runStep_select_designated (s : VI.VarState) (w : VI.ModuleWrapper)
    (p : String) (hw : w.varId = s.varId) (hd : s.outputDesignated = true) :
    VI.runStep s (.select_output w p) = s := by
  simp only [VI.runStep, VI.select_output_port]
  rw [if_neg (by simp [hw]), hd]
  simp

/-- Effect of the first legal `select_output_port`: exactly one buffered
output-designating connection, and the flag set. -/
theorem runStep_select_ok (s : VI.VarState) (w : VI.ModuleWrapper)
    (p : String) (hw : w.varId = s.varId) (hd : s.outputDesignated = false) :
    VI.runStep s (.select_output w p) = { s with
      operations := s.operations ++
        [.add_connection w.modId p s.outputModId "InternalPipe"],
      outputDesignated := true } := by
  simp only [VI.runStep, VI.select_output_port]
  rw [if_neg (by simp [hw]), hd]
  simp

/-- Claim C9: the first `select_output_port` call with a module of the
Variable buffers exactly one output-designating connection and sets the
flag; a second call, or a call with a module of a different Variable, raises
and buffers nothing; and the one-designated-output invariant is preserved by
every builder operation. -/
theorem claim_C9_output_port (s : VI.VarState) (hWF : VI.WF s) :
    (∀ (w : VI.ModuleWrapper) (p : String), w.varId = s.varId →
      s.outputDesignated = false →
      VI.select_output_port s w p = .ok { s with
        operations := s.operations ++
          [.add_connection w.modId p s.outputModId "InternalPipe"],
        outputDesignated := true }) ∧
    (∀ (w : VI.ModuleWrapper) (p : String), w.varId = s.varId →
      s.outputDesignated = true →
      VI.select_output_port s w p =
        .error "select_output_port() was called more than once") ∧
    (∀ (w : VI.ModuleWrapper) (p : String), w.varId ≠ s.varId →
      VI.select_output_port s w p =
        .error
          "select_output_port() designated a module from a different Variable") ∧
    (∀ step : VI.Step, VI.stepAuth s step → VI.Inv s →
      VI.Inv (VI.runStep s step) ∧ VI.WF (VI.runStep s step)) := by
  obtain ⟨hout, hlt, holt⟩ := hWF
  refine ⟨?_, ?_, ?_, ?_⟩
  · intro w p hw hnd
    unfold VI.select_output_port
    rw [if_neg (by simp [hw]), hnd]
    simp
  · intro w p hw hd
    unfold VI.select_output_port
    rw [if_neg (by simp [hw]), hd]
    simp
  · intro w p hw
    unfold VI.select_output_port
    rw [if_pos hw]
  · intro step hauth hinv
    cases step with
    | add_module =>
        have hrun : VI.runStep s .add_module = (VI.add_module s).1 := rfl
        rw [hrun]
        constructor
        · unfold VI.Inv at hinv ⊢
          simp only [VI.add_module, List.countP_append]
          simpa [VI.isOutputConn] using hinv
        · unfold VI.WF
          simp only [VI.add_module]
          refine ⟨?_, ?_, ?_⟩
          · simp only [List.mem_append, List.mem_singleton]
            rintro (h | heq)
            · exact hout h
            · exact absurd heq (Nat.ne_of_lt holt)
          · intro m hm
            rcases List.mem_append.mp hm with h | h
            · exact Nat.lt_succ_of_lt (hlt m h)
            · rcases List.mem_singleton.mp h with rfl
              exact Nat.lt_succ_self _
          · exact Nat.lt_succ_of_lt holt
    | add_function w port value =>
        by_cases hw : w.varId = s.varId
        · rw [runStep_add_function_eq s w port value hw]
          constructor
          · unfold VI.Inv at hinv ⊢
            simp only [VI.add_function, List.countP_append]
            simpa [VI.isOutputConn] using hinv
          · exact ⟨hout, hlt, holt⟩
        · rw [runStep_add_function_ne s w port value hw]
          exact ⟨hinv, hout, hlt, holt⟩
    | connect w p other q =>
        by_cases hw : w.varId = s.varId
        · by_cases hsame : w.varId = other.varId
          · rw [runStep_connect_ok s w other p q hw hsame]
            have hother : other.varId = s.varId := hsame ▸ hw
            have hmem : other.modId ∈ s.wrappers := hauth hother
            have hne : ¬ other.modId = s.outputModId := by
              intro heq
              exact hout (heq ▸ hmem)
            constructor
            · unfold VI.Inv at hinv ⊢
              simp only [List.countP_append]
              simpa [VI.isOutputConn, hne] using hinv
            · exact ⟨hout, hlt, holt⟩
          · rw [runStep_connect_diff s w other p q hw hsame]
            exact ⟨hinv, hout, hlt, holt⟩
        · rw [runStep_connect_ne s w other p q hw]
          exact ⟨hinv, hout, hlt, holt⟩
    | select_output w p =>
        by_cases hw : w.varId = s.varId
        · cases hd : s.outputDesignated with
          | true =>
              rw [runStep_select_designated s w p hw hd]
              exact ⟨hinv, hout, hlt, holt⟩
          | false =>
              rw [runStep_select_ok s w p hw hd]
              constructor
              · unfold VI.Inv at hinv ⊢
                rw [hd] at hinv
                simp only [if_false, List.countP_append] at hinv ⊢
                simp [VI.isOutputConn, hinv]
              · exact ⟨hout, hlt, holt⟩
        · rw [runStep_select_ne s w p hw]
          exact ⟨hinv, hout, hlt, holt⟩

/-- A fresh Variable builder state. -/
def s0 : VI.VarState := ⟨0, 0, 1, [], false, []⟩

/-- The builder state after designating the output port. -/
def s1 : VI.VarState :=
  ⟨0, 0, 1, [], true, [.add_connection 5 "out" 0 "InternalPipe"]⟩

/-- Witness for claim C9 at a concrete builder: the first designation
buffers one connection, the second raises, a foreign wrapper raises, and the
invariant is preserved. -/
theorem claim_C9_output_port_witness :
    VI.WF s0 ∧ VI.WF s1 ∧ VI.Inv s0 ∧
    VI.select_output_port s0 ⟨0, 5⟩ "out" = .ok s1 ∧
    VI.select_output_port s1 ⟨0, 5⟩ "out" =
      .error "select_output_port() was called more than once" ∧
    VI.select_output_port s0 ⟨3, 5⟩ "out" =
      .error
        "select_output_port() designated a module from a different Variable" ∧
    VI.Inv (VI.runStep s0 (.select_output ⟨0, 5⟩ "out")) ∧
    VI.WF (VI.runStep s0 (.select_output ⟨0, 5⟩ "out")) :=
  ⟨by unfold VI.WF; decide, by unfold VI.WF; decide,
    by unfold VI.Inv; decide,
    (claim_C9_output_port s0 (by unfold VI.WF; decide)).1 ⟨0, 5⟩ "out"
      rfl rfl,
    (claim_C9_output_port s1 (by unfold VI.WF; decide)).2.1 ⟨0, 5⟩ "out"
      rfl rfl,
    (claim_C9_output_port s0 (by unfold VI.WF; decide)).2.2.1 ⟨3, 5⟩ "out"
      (by decide),
    ((claim_C9_output_port s0 (by unfold VI.WF; decide)).2.2.2
      (.select_output ⟨0, 5⟩ "out") trivial (by unfold VI.Inv; decide)).1,
    ((claim_C9_output_port s0 (by unfold VI.WF; decide)).2.2.2
      (.select_output ⟨0, 5⟩ "out") trivial (by unfold VI.Inv; decide)).2⟩

/-! ## Lemmas about `create_pipeline` -/

/-- The plot-module copy phase: the id scope only grows, every module it
adds carries a freshly minted id, and every non-`InputPort` template module
is copied (same descriptor, fresh id). -/
theorem copyPlotMods_spec :
    ∀ (mods : List PipeModule) (ctrl : Controller),
    ctrl.nextId ≤ (copyPlotMods ctrl mods).1.nextId ∧
    (∀ m', CPOp.addModule m' ∈ (copyPlotMods ctrl mods).2.1 →
      ctrl.nextId ≤ m'.id) ∧
    (∀ m ∈ mods, m.desc ≠ inputport_desc →
      ∃ m', CPOp.addModule m' ∈ (copyPlotMods ctrl mods).2.1 ∧
        m'.desc = m.desc ∧ ctrl.nextId ≤ m'.id) := by
  intro mods
  induction mods with
  | nil =>
      intro ctrl
      refine ⟨Nat.le_refl _, ?_, ?_⟩ <;> simp [copyPlotMods]
  | cons m rest ih =>
      intro ctrl
      by_cases hdesc : m.desc = inputport_desc
      · simp only [copyPlotMods, if_pos hdesc]
        refine ⟨(ih ctrl).1, (ih ctrl).2.1, ?_⟩
        intro m2 hm2 hnd
        rcases List.mem_cons.mp hm2 with rfl | hmem
        · exact absurd hdesc hnd
        · exact (ih ctrl).2.2 m2 hmem hnd
      · rcases hrec : copyPlotMods ⟨ctrl.nextId + 1⟩ rest
          with ⟨ctrlB, opsB, mapB⟩
        have ihs := ih ⟨ctrl.nextId + 1⟩
        rw [hrec] at ihs
        obtain ⟨ih1, ih2, ih3⟩ := ihs
        simp only [copyPlotMods, if_neg hdesc, create_module_from_descriptor,
          hrec]
        refine ⟨?_, ?_, ?_⟩
        · exact Nat.le_trans (Nat.le_succ _) ih1
        · intro m' hm'
          rcases List.mem_cons.mp hm' with heq | hm'2
          · cases heq
            exact Nat.le_refl _
          · rcases List.mem_append.mp hm'2 with hmap | hops
            · exfalso
              rcases List.mem_map.mp hmap with ⟨f, _, heq⟩
              cases heq
            · exact Nat.le_trans (Nat.le_succ _) (ih2 m' hops)
        · intro m2 hm2 hnd
          rcases List.mem_cons.mp hm2 with rfl | hmem
          · exact ⟨⟨ctrl.nextId, m2.desc, []⟩, by simp, rfl, Nat.le_refl _⟩
          · obtain ⟨m', hm', hdesc', hid⟩ := ih3 m2 hmem hnd
            exact ⟨m', by simp [hm'], hdesc',
              Nat.le_trans (Nat.le_succ _) hid⟩

/-- The plot-connection phase never adds a module. -/
theorem copyPlotConns_no_addModule (plot : Pipeline)
    (map : List (Nat × PipeModule)) :
    ∀ (conns : List PConnection) (ops : List CPOp)
      (params : List (Option String × (PipeModule × String))),
      copyPlotConns plot map conns = .ok (ops, params) →
      ∀ m, CPOp.addModule m ∉ ops := by
  intro conns
  induction conns with
  | nil =>
      intro ops params h m
      cases h
      simp
  | cons c rest ih =>
      intro ops params h m hmem
      cases hfind : plot.modules.find? (fun mm => mm.id = c.sourceId) with
      | none => simp only [copyPlotConns, hfind] at h; cases h
      | some src =>
          simp only [copyPlotConns, hfind] at h
          by_cases hsrc : src.desc = inputport_desc
          · rw [if_pos hsrc] at h
            cases hdm : assocFind c.destId map with
            | none => simp only [hdm] at h; cases h
            | some dm =>
                simp only [hdm] at h
                cases hrec : copyPlotConns plot map rest with
                | error e => rw [hrec] at h; cases h
                | ok pr =>
                    rcases pr with ⟨ops2, params2⟩
                    rw [hrec] at h
                    cases h
                    exact ih ops2 params2 hrec m hmem
          · rw [if_neg hsrc] at h
            cases hsm : assocFind c.sourceId map with
            | none => simp only [hsm] at h; cases h
            | some sm =>
                cases hdm : assocFind c.destId map with
                | none => simp only [hsm, hdm] at h; cases h
                | some dm =>
                    simp only [hsm, hdm] at h
                    cases hrec : copyPlotConns plot map rest with
                    | error e => rw [hrec] at h; cases h
                    | ok pr =>
                        rcases pr with ⟨ops2, params2⟩
                        rw [hrec] at h
                        cases h
                        rcases List.mem_cons.mp hmem with heq | hm2
                        · cases heq
                        · exact ih ops2 params2 hrec m hm2

/-- The variable-module copy phase adds exactly the original non-output
modules of the variable pipeline, verbatim. -/
theorem copyVarMods_spec : ∀ mods : List PipeModule,
    (∀ op ∈ (copyVarMods mods).2.1,
      ∃ m, op = CPOp.addModule m ∧ m ∈ mods) ∧
    (∀ m ∈ mods,
      ¬(m.desc = outputport_desc ∧ _get_function m "name" = some "value") →
      CPOp.addModule m ∈ (copyVarMods mods).2.1) := by
  intro mods
  induction mods with
  | nil => constructor <;> simp [copyVarMods]
  | cons m rest ih =>
      rcases hrec : copyVarMods rest with ⟨oid, ops, map⟩
      rw [hrec] at ih
      obtain ⟨ih1, ih2⟩ := ih
      by_cases hcond : m.desc = outputport_desc ∧
          _get_function m "name" = some "value"
      · simp only [copyVarMods, hrec, if_pos hcond]
        constructor
        · intro op hop
          obtain ⟨mm, heq, hmm⟩ := ih1 op hop
          exact ⟨mm, heq, List.mem_cons_of_mem _ hmm⟩
        · intro m2 hm2 hnd
          rcases List.mem_cons.mp hm2 with rfl | hmem
          · exact absurd hcond hnd
          · exact ih2 m2 hmem hnd
      · simp only [copyVarMods, hrec, if_neg hcond]
        constructor
        · intro op hop
          rcases List.mem_cons.mp hop with rfl | hmem
          · exact ⟨m, rfl, List.mem_cons_self _ _⟩
          · obtain ⟨mm, heq, hmm⟩ := ih1 op hmem
            exact ⟨mm, heq, List.mem_cons_of_mem _ hmm⟩
        · intro m2 hm2 hnd
          rcases List.mem_cons.mp hm2 with rfl | hmem
          · exact List.mem_cons_self _ _
          · exact List.mem_cons_of_mem _ (ih2 m2 hmem hnd)

/-- The variable-connection phase never adds a module. -/
theorem copyVarConns_no_addModule (param : Option String)
    (plotParams : List (Option String × (PipeModule × String)))
    (outputId : Option Nat) (copyMap : List (Nat × PipeModule)) :
    ∀ (conns : List PConnection) (ops : List CPOp),
      copyVarConns param plotParams outputId copyMap conns = .ok ops →
      ∀ m, CPOp.addModule m ∉ ops := by
  intro conns
  induction conns with
  | nil =>
      intro ops h m
      cases h
      simp
  | cons c rest ih =>
      intro ops h m hmem
      cases houtput : outputId with
      | none => simp only [copyVarConns, houtput] at h; cases h
      | some oid =>
          rw [houtput] at ih
          simp only [copyVarConns, houtput] at h
          by_cases hdst : c.destId = oid
          · rw [if_pos hdst] at h
            cases hpp : assocFind param plotParams with
            | none => simp only [hpp] at h; cases h
            | some pr =>
                rcases pr with ⟨vmod, vport⟩
                simp only [hpp] at h
                cases hsm : assocFind c.sourceId copyMap with
                | none => simp only [hsm] at h; cases h
                | some sm =>
                    simp only [hsm] at h
                    cases hrec : copyVarConns param plotParams (some oid)
                        copyMap rest with
                    | error e => rw [hrec] at h; cases h
                    | ok ops2 =>
                        rw [hrec] at h
                        cases h
                        rcases List.mem_cons.mp hmem with heq | hm2
                        · cases heq
                        · exact ih ops2 hrec m hm2
          · rw [if_neg hdst] at h
            cases hrec : copyVarConns param plotParams (some oid) copyMap
                rest with
            | error e => rw [hrec] at h; cases h
            | ok ops2 =>
                rw [hrec] at h
                cases h
                rcases List.mem_cons.mp hmem with heq | hm2
                · cases heq
                · exact ih ops2 hrec m hm2

/-- The variable phase of `create_pipeline`: added modules are exactly the
original non-output modules of the bound variable pipelines. -/
theorem processVars_spec
    (plotParams : List (Option String × (PipeModule × String))) :
    ∀ (vars : List (String × Pipeline)) (ops : List CPOp),
      processVars plotParams vars = .ok ops →
      (∀ m, CPOp.addModule m ∈ ops →
        ∃ p pv, (p, pv) ∈ vars ∧ m ∈ pv.modules) ∧
      (∀ p pv, (p, pv) ∈ vars → ∀ m ∈ pv.modules,
        ¬(m.desc = outputport_desc ∧
          _get_function m "name" = some "value") →
        CPOp.addModule m ∈ ops) := by
  intro vars
  induction vars with
  | nil =>
      intro ops h
      cases h
      constructor
      · intro m hm
        cases hm
      · rintro p pv hpv
        cases hpv
  | cons pvpair rest ih =>
      rcases pvpair with ⟨param, pipeline⟩
      intro ops h
      simp only [processVars] at h
      rcases hvm : copyVarMods pipeline.modules with ⟨oid, mops, cmap⟩
      rw [hvm] at h
      cases hvc : copyVarConns (some param) plotParams oid cmap
          pipeline.connection_list with
      | error e => simp only [hvc] at h; cases h
      | ok cops =>
          simp only [hvc] at h
          cases hrest : processVars plotParams rest with
          | error e => rw [hrest] at h; cases h
          | ok restOps =>
              rw [hrest] at h
              cases h
              obtain ⟨ihr1, ihr2⟩ := ih restOps hrest
              have hvmspec := copyVarMods_spec pipeline.modules
              rw [hvm] at hvmspec
              obtain ⟨hvm1, hvm2⟩ := hvmspec
              have hvcno := copyVarConns_no_addModule (some param) plotParams
                oid cmap pipeline.connection_list cops hvc
              constructor
              · intro m hm
                rcases List.mem_append.mp hm with h1 | h2
                · rcases List.mem_append.mp h1 with ha | hb
                  · obtain ⟨mm, heq, hmm⟩ := hvm1 _ ha
                    cases heq
                    exact ⟨param, pipeline, List.mem_cons_self _ _, hmm⟩
                  · exact absurd hb (hvcno m)
                · obtain ⟨p, pv, hmem, hmm⟩ := ihr1 m h2
                  exact ⟨p, pv, List.mem_cons_of_mem _ hmem, hmm⟩
              · rintro p pv hpv m hm hnd
                rcases List.mem_cons.mp hpv with heq | hmem
                · cases heq
                  exact List.mem_append.mpr (Or.inl
                    (List.mem_append.mpr (Or.inl (hvm2 m hm hnd))))
                · exact List.mem_append.mpr
                    (Or.inr (ihr2 p pv hmem m hm hnd))

/-- The plot template for the C2 scenario: one `InputPort` placeholder named
`p` (module id 1) feeding one plot module (id 2). -/
def plotPipeC2 : Pipeline :=
  ⟨[⟨1, inputport_desc, [⟨"name", ["p"]⟩]⟩, ⟨2, ⟨"pk", "M", wX⟩, []⟩],
   [⟨1, "InternalPipe", 2, "in"⟩]⟩

/-- The data module of the committed variable pipeline, id 7. -/
def varModC2 : PipeModule := ⟨7, ⟨"pk", "D", wY⟩, [⟨"value", ["9"]⟩]⟩

/-- The committed variable pipeline for the C2 scenario: the data module
(id 7) feeding the `OutputPort` module named `value` (id 8). -/
def varPipeC2 : Pipeline :=
  ⟨[varModC2, ⟨8, outputport_desc, [⟨"name", ["value"]⟩]⟩],
   [⟨7, "out", 8, "InternalPipe"⟩]⟩

/-- The C2 recipe: the plot with its parameter `p` bound to the variable. -/
def recipeC2 : Recipe := ⟨plotPipeC2, [("p", varPipeC2)]⟩

/-- Counterexample to claim C2 as stated: `create_pipeline` succeeds on a
well-formed recipe while adding the variable data module as the original
object — module id 7 of the variable committed pipeline is reused verbatim
in the new pipeline, not minted fresh. -/
theorem claim_C2_counterexample :
    ∃ (ops : List CPOp) (ctrl2 : Controller),
      create_pipeline ⟨100⟩ recipeC2 = .ok (ops, ctrl2) ∧
      CPOp.addModule varModC2 ∈ ops ∧
      varModC2 ∈ varPipeC2.modules ∧
      varModC2.id < 100 := by
  refine ⟨_, _, rfl, ?_, ?_, ?_⟩
  · decide
  · decide
  · decide

/-- Claim C2 (amended): every module `create_pipeline` adds is either a
plot-template copy under a freshly minted id (at or above the id scope of
the controller, hence colliding with no pre-existing id below the scope) or
one of the original modules of a bound variable committed pipeline, added
verbatim with its existing id; every non-`InputPort` plot module is copied
fresh; and every module of a bound variable pipeline other than its
designated `OutputPort` module is added as the original object. -/
theorem claim_C2_amended (ctrl : Controller) (recipe : Recipe)
    (ops : List CPOp) (ctrl2 : Controller)
    (h : create_pipeline ctrl recipe = .ok (ops, ctrl2)) :
    (∀ m, CPOp.addModule m ∈ ops →
      ctrl.nextId ≤ m.id ∨
        ∃ p pv, (p, pv) ∈ recipe.vars ∧ m ∈ pv.modules) ∧
    (∀ m ∈ recipe.plot.modules, m.desc ≠ inputport_desc →
      ∃ m', CPOp.addModule m' ∈ ops ∧ m'.desc = m.desc ∧
        ctrl.nextId ≤ m'.id) ∧
    (∀ p pv, (p, pv) ∈ recipe.vars → ∀ m ∈ pv.modules,
      ¬(m.desc = outputport_desc ∧ _get_function m "name" = some "value") →
      CPOp.addModule m ∈ ops) := by
  rcases hpm : copyPlotMods ctrl recipe.plot.modules
    with ⟨ctrlA, plotOps, newMap⟩
  simp only [create_pipeline, hpm] at h
  cases hpc : copyPlotConns recipe.plot newMap
      recipe.plot.connection_list with
  | error e => rw [hpc] at h; cases h
  | ok pr =>
      rcases pr with ⟨connOps, plotParams⟩
      rw [hpc] at h
      have h2 : (do
          let varOps ← processVars plotParams recipe.vars
          Except.ok (plotOps ++ connOps ++ varOps, ctrlA) :
            Except CPErr (List CPOp × Controller)) = Except.ok (ops, ctrl2) :=
        h
      clear h
      cases hpv : processVars plotParams recipe.vars with
      | error e => rw [hpv] at h2; cases h2
      | ok varOps =>
          rw [hpv] at h2
          cases h2
          have hpms := copyPlotMods_spec recipe.plot.modules ctrl
          rw [hpm] at hpms
          obtain ⟨_, hfresh, hcomplete⟩ := hpms
          have hconn := copyPlotConns_no_addModule recipe.plot newMap
            recipe.plot.connection_list connOps plotParams hpc
          obtain ⟨hvar1, hvar2⟩ := processVars_spec plotParams recipe.vars
            varOps hpv
          refine ⟨?_, ?_, ?_⟩
          · intro m hm
            rcases List.mem_append.mp hm with h1 | h2
            · rcases List.mem_append.mp h1 with ha | hb
              · exact Or.inl (hfresh m ha)
              · exact absurd hb (hconn m)
            · exact Or.inr (hvar1 m h2)
          · intro m hm hnd
            obtain ⟨m', hm', hdesc', hid⟩ := hcomplete m hm hnd
            exact ⟨m', List.mem_append.mpr (Or.inl
              (List.mem_append.mpr (Or.inl hm'))), hdesc', hid⟩
          · intro p pv hpv2 m hm hnd
            exact List.mem_append.mpr
              (Or.inr (hvar2 p pv hpv2 m hm hnd))

/-- Witness for the amended claim C2 at the concrete recipe. -/
theorem claim_C2_amended_witness :
    ∃ (ops : List CPOp) (ctrl2 : Controller),
      create_pipeline ⟨100⟩ recipeC2 = .ok (ops, ctrl2) ∧
      (∀ m, CPOp.addModule m ∈ ops →
        100 ≤ m.id ∨
          ∃ p pv, (p, pv) ∈ recipeC2.vars ∧ m ∈ pv.modules) ∧
      (∀ m ∈ recipeC2.plot.modules, m.desc ≠ inputport_desc →
        ∃ m', CPOp.addModule m' ∈ ops ∧ m'.desc = m.desc ∧ 100 ≤ m'.id) := by
  refine ⟨_, _, rfl, ?_, ?_⟩
  · exact (claim_C2_amended ⟨100⟩ recipeC2 _ _ rfl).1
  · exact (claim_C2_amended ⟨100⟩ recipeC2 _ _ rfl).2.1
